import Mathlib

/-!
Verification of the MeetMesh signaling core against its design document.

The server-side Room Authority (src/server.ts) keeps all of its state in
JavaScript `Map`s and `Set`s, which preserve insertion order and, on `set`
of an existing key, keep the key at its original position.  We embed those
collections as association lists (`List (String × α)`) with operations
`aget`, `aset`, `adel` mirroring `Map.get`, `Map.set`, `Map.delete`, and
membership lists (`List String`) with `sadd` / `sdel` mirroring `Set.add` /
`Set.delete`.  Every event handler of the server is translated line by line
into a pure function from a `ServerState` to a new state plus the list of
socket emissions performed.  JavaScript truthiness on strings (`if (x)`,
`x || y`) is modelled explicitly.

The client-side Peer Session Negotiator (src/hooks/useWebRTC.ts) is
embedded separately: the browser `RTCPeerConnection` is abstracted to the
part of its state relevant to the claims (whether a remote description has
been applied, and the ordered list of successfully added ICE candidates),
with `addIceCandidate` failing when no remote description is set, as the
WebRTC platform API does.  The statistics sampler's loss-percentage
computation is embedded over exact rationals.
-/

namespace MeetMesh

/-- JavaScript `Map.get`: first (and, by construction, only) binding. -/
def aget {α : Type} (m : List (String × α)) (k : String) : Option α :=
  match m with
  | [] => none
  | (k', v) :: t => if k' = k then some v else aget t k

/-- JavaScript `Map.set`: replace in place keeping position, else append. -/
def aset {α : Type} (m : List (String × α)) (k : String) (v : α) : List (String × α) :=
  match m with
  | [] => [(k, v)]
  | (k', v') :: t => if k' = k then (k, v) :: t else (k', v') :: aset t k v

/-- JavaScript `Map.delete`. -/
def adel {α : Type} (m : List (String × α)) (k : String) : List (String × α) :=
  m.filter (fun p => p.1 ≠ k)

/-- JavaScript `Set.add`: append if not present (insertion order kept). -/
def sadd (s : List String) (x : String) : List String :=
  if x ∈ s then s else s ++ [x]

/-- JavaScript `Set.delete`. -/
def sdel (s : List String) (x : String) : List String :=
  s.filter (fun y => y ≠ x)

/-- JavaScript truthiness of a possibly-undefined string (`if (x)`):
`undefined` and the empty string are falsy. -/
def otruthy : Option String → Option String
  | some s => if s = "" then none else some s
  | none => none

/-- JavaScript `x || y` for a possibly-undefined string `x`. -/
def orElseStr (x : Option String) (y : String) : String :=
  match otruthy x with
  | some s => s
  | none => y

/-- Room metadata, `RoomMeta` in src/server.ts. -/
structure RoomMeta where
  isPublic : Bool
  name : String
  hostId : Option String
  isLocked : Bool
  waitingRoom : Bool
deriving DecidableEq

/-- Waiting room entry, `WaitingUser` in src/server.ts. -/
structure WaitingUser where
  odId : String
  socketId : String
  userName : String
deriving DecidableEq

/-- Optional creation config of `join-room`
(`{ isPublic: boolean; name: string; waitingRoom?: boolean }`). -/
structure JoinConfig where
  isPublic : Bool
  name : String
  waitingRoom : Option Bool
deriving DecidableEq

/-- Room settings payload produced by `getRoomSettings`. -/
structure RoomSettings where
  isLocked : Bool
  waitingRoom : Bool
  hostId : Option String
deriving DecidableEq

/-- One row of the public directory produced by `getPublicRooms`. -/
structure PublicRoomInfo where
  roomId : String
  name : String
  count : Nat
  isPublic : Bool
  isLocked : Bool
  waitingRoom : Bool
deriving DecidableEq

/-- The whole mutable state of the Room Authority (src/server.ts, lines
34-41), together with the socket.io bookkeeping the handlers consult:
`connected` models the keys of `io.sockets.sockets` and `channels` the
socket.io room membership pairs (socketId, room) maintained by
`socket.join` / `socket.leave` / disconnection. -/
structure ServerState where
  rooms : List (String × List String)
  roomMetadata : List (String × RoomMeta)
  waitingRooms : List (String × List (String × WaitingUser))
  socketToUser : List (String × String)
  userToRoom : List (String × String)
  userNames : List (String × String)
  connected : List String
  channels : List (String × String)
deriving DecidableEq

/-- The empty server state at process start. -/
def initState : ServerState :=
  ⟨[], [], [], [], [], [], [], []⟩

/-- Addressing mode of one `emit` call in the server source. -/
inductive Target where
  | socket (sid : String)
  | roomExceptSender (roomId : String) (sender : String)
  | roomAll (roomId : String)
  | broadcast
deriving DecidableEq

/-- Server-to-client messages (the payload shapes of src/types.ts). -/
inductive Msg where
  | roomsUpdate (rooms : List PublicRoomInfo)
  | roomJoined (roomId : String) (isHost : Bool) (settings : RoomSettings)
  | roomLocked (roomId : String)
  | waitingRoomMsg (roomId : String) (position : Nat)
  | waitingRoomUpdate (roomId : String) (users : List (String × String))
  | userConnected (odId : String)
  | userDisconnected (odId : String)
  | admitted (roomId : String) (isHost : Bool) (settings : RoomSettings)
  | denied (roomId : String)
  | roomSettingsUpdate (settings : RoomSettings)
  | hostChanged (isHost : Bool)
  | roomClosed (roomId : String)
  | offerRelay (callerId : Option String) (userName : String) (isScreenShare : Bool)
      (body : String) (targetUserId : String)
  | answerRelay (callerId : Option String) (userName : String) (isScreenShare : Bool)
      (body : String) (targetUserId : String)
  | iceRelay (callerId : Option String) (body : String) (targetUserId : String)
  | chatRelay (body : String)
  | reactionRelay (body : String)
  | captionRelay (body : String)
  | whiteboardDrawRelay (body : String)
  | whiteboardClearRelay
deriving DecidableEq

/-- One `emit` performed by a handler. -/
abbrev Emit := Target × Msg

/-- Which sockets a given emission reaches, given the socket.io channel
membership at the end of the event. -/
def Target.deliversTo (t : Target) (channels : List (String × String)) (sid : String) : Prop :=
  match t with
  | .socket s => sid = s
  | .roomExceptSender r sender => (sid, r) ∈ channels ∧ sid ≠ sender
  | .roomAll r => (sid, r) ∈ channels
  | .broadcast => True

/-- `getRoomSettings` (src/server.ts lines 70-77). -/
def getRoomSettings (st : ServerState) (roomId : String) : RoomSettings :=
  match aget st.roomMetadata roomId with
  | some m => ⟨m.isLocked, m.waitingRoom, m.hostId⟩
  | none => ⟨false, false, none⟩

/-- `getPublicRooms` (src/server.ts lines 43-61): public rooms with a
positive member count, in metadata insertion order. -/
def getPublicRooms (st : ServerState) : List PublicRoomInfo :=
  st.roomMetadata.filterMap (fun p =>
    let count := ((aget st.rooms p.1).getD []).length
    if p.2.isPublic && decide (0 < count) then
      some ⟨p.1, p.2.name, count, true, p.2.isLocked, p.2.waitingRoom⟩
    else none)

/-- First socket bound to a given user id:
`Array.from(socketToUser.entries()).find(([_, id]) => id === u)?.[0]`. -/
def firstSock (m : List (String × String)) (u : String) : Option String :=
  (m.find? (fun p => p.2 = u)).map (fun p => p.1)

/-- Projection of a waiting list to the payload sent in
`waiting-room-update` (`{ odId, userName }` pairs, insertion order). -/
def waitingPayload (w : List (String × WaitingUser)) : List (String × String) :=
  w.map (fun p => (p.2.odId, p.2.userName))

/-- Waiting branch of the `join-room` handler (src/server.ts lines
108-137): room exists, waiting room enabled, requester is not the host. -/
def joinWaiting (st : ServerState) (sid roomId odId : String)
    (userName : Option String) (m : RoomMeta) : ServerState × List Emit :=
  let w0 := (aget st.waitingRooms roomId).getD []
  let w1 := aset w0 odId ⟨odId, sid, orElseStr userName odId⟩
  let st1 := { st with
    waitingRooms := aset st.waitingRooms roomId w1,
    socketToUser := aset st.socketToUser sid odId }
  let hostEmits : List Emit :=
    match m.hostId with
    | some h =>
      match otruthy (firstSock st1.socketToUser h) with
      | some hs => [(Target.socket hs, Msg.waitingRoomUpdate roomId (waitingPayload w1))]
      | none => []
    | none => []
  (st1, (Target.socket sid, Msg.waitingRoomMsg roomId w1.length) :: hostEmits)

/-- Direct-join branch of the `join-room` handler (src/server.ts lines
139-178), with `isNewRoom` precomputed as in the source. -/
def joinDirect (st : ServerState) (sid roomId odId : String)
    (config : Option JoinConfig) (isNewRoom : Bool) : ServerState × List Emit :=
  let st1 := { st with channels :=
    if (sid, roomId) ∈ st.channels then st.channels else st.channels ++ [(sid, roomId)] }
  let st2 := { st1 with socketToUser := aset st1.socketToUser sid odId,
                        userToRoom := aset st1.userToRoom odId roomId }
  let st3 :=
    if isNewRoom then
      { st2 with rooms := aset st2.rooms roomId [],
                 roomMetadata := aset st2.roomMetadata roomId
                   ⟨(config.map (fun c => c.isPublic)).getD false,
                    orElseStr (config.map (fun c => c.name)) ("Room " ++ roomId),
                    some odId, false,
                    (config.bind (fun c => c.waitingRoom)).getD false⟩,
                 waitingRooms := aset st2.waitingRooms roomId [] }
    else st2
  let (st4, connEmits) :=
    match aget st3.rooms roomId with
    | some l => ({ st3 with rooms := aset st3.rooms roomId (sadd l odId) },
                 [((Target.roomExceptSender roomId sid : Target), Msg.userConnected odId)])
    | none => (st3, ([] : List Emit))
  let isHost := decide (((aget st4.roomMetadata roomId).bind (fun m => m.hostId)) = some odId)
  (st4, connEmits ++
    [(Target.socket sid, Msg.roomJoined roomId isHost (getRoomSettings st4 roomId)),
     (Target.broadcast, Msg.roomsUpdate (getPublicRooms st4))])

/-- The `join-room` handler (src/server.ts lines 92-178). -/
def joinRoom (st : ServerState) (sid roomId odId : String)
    (config : Option JoinConfig) (userName : Option String) : ServerState × List Emit :=
  let st0 :=
    match otruthy userName with
    | some un => { st with userNames := aset st.userNames odId un }
    | none => st
  match aget st0.roomMetadata roomId with
  | some m =>
    if m.isLocked then
      (st0, [(Target.socket sid, Msg.roomLocked roomId)])
    else if m.waitingRoom && decide (m.hostId ≠ some odId) then
      joinWaiting st0 sid roomId odId userName m
    else
      joinDirect st0 sid roomId odId config false
  | none => joinDirect st0 sid roomId odId config true

/-- The `admit-user` handler (src/server.ts lines 181-229). -/
def admitUser (st : ServerState) (sid roomId odId : String) : ServerState × List Emit :=
  let hostUserId := aget st.socketToUser sid
  let meta := aget st.roomMetadata roomId
  if (meta.bind (fun m => m.hostId)) ≠ hostUserId then (st, [])
  else
    match aget st.waitingRooms roomId with
    | none => (st, [])
    | some w =>
      match aget w odId with
      | none => (st, [])
      | some wu =>
        let w1 := adel w odId
        let st1 := { st with waitingRooms := aset st.waitingRooms roomId w1 }
        let (st2, admitEmits) :=
          if wu.socketId ∈ st1.connected then
            let stA := { st1 with
              channels := if (wu.socketId, roomId) ∈ st1.channels then st1.channels
                          else st1.channels ++ [(wu.socketId, roomId)],
              userToRoom := aset st1.userToRoom odId roomId }
            match aget stA.rooms roomId with
            | some l =>
              let stB := { stA with rooms := aset stA.rooms roomId (sadd l odId) }
              (stB, [((Target.roomExceptSender roomId wu.socketId : Target), Msg.userConnected odId),
                     (Target.socket wu.socketId, Msg.admitted roomId false (getRoomSettings stB roomId))])
            | none =>
              (stA, [((Target.socket wu.socketId : Target), Msg.admitted roomId false (getRoomSettings stA roomId))])
          else (st1, ([] : List Emit))
        (st2, admitEmits ++
          [(Target.socket sid, Msg.waitingRoomUpdate roomId (waitingPayload w1)),
           (Target.broadcast, Msg.roomsUpdate (getPublicRooms st2))])

/-- The `deny-user` handler (src/server.ts lines 232-264). -/
def denyUser (st : ServerState) (sid roomId odId : String) : ServerState × List Emit :=
  let hostUserId := aget st.socketToUser sid
  let meta := aget st.roomMetadata roomId
  if (meta.bind (fun m => m.hostId)) ≠ hostUserId then (st, [])
  else
    match aget st.waitingRooms roomId with
    | none => (st, [])
    | some w =>
      match aget w odId with
      | none => (st, [])
      | some wu =>
        let w1 := adel w odId
        let st1 := { st with waitingRooms := aset st.waitingRooms roomId w1 }
        let (st2, denyEmits) :=
          if wu.socketId ∈ st1.connected then
            ({ st1 with socketToUser := adel st1.socketToUser wu.socketId },
             [((Target.socket wu.socketId : Target), Msg.denied roomId)])
          else (st1, ([] : List Emit))
        (st2, denyEmits ++ [(Target.socket sid, Msg.waitingRoomUpdate roomId (waitingPayload w1))])

/-- The `toggle-lock` handler (src/server.ts lines 267-283).  The guard
`meta?.hostId !== hostUserId` compares two possibly-undefined values; when
both are undefined it does not return, and the subsequent
`meta.isLocked = !meta.isLocked` dereferences undefined metadata — a
thrown TypeError, modelled as `Except.error`. -/
def toggleLockE (st : ServerState) (sid roomId : String) : Except Unit (ServerState × List Emit) :=
  let hostUserId := aget st.socketToUser sid
  let meta := aget st.roomMetadata roomId
  if (meta.bind (fun m => m.hostId)) ≠ hostUserId then .ok (st, [])
  else
    match meta with
    | none => .error ()
    | some m =>
      let m1 := { m with isLocked := !m.isLocked }
      let st1 := { st with roomMetadata := aset st.roomMetadata roomId m1 }
      .ok (st1, [(Target.roomAll roomId, Msg.roomSettingsUpdate (getRoomSettings st1 roomId)),
                 (Target.broadcast, Msg.roomsUpdate (getPublicRooms st1))])

/-- The `toggle-waiting-room` handler (src/server.ts lines 286-302), with
the same undefined-metadata TypeError as `toggle-lock`. -/
def toggleWaitingRoomE (st : ServerState) (sid roomId : String) :
    Except Unit (ServerState × List Emit) :=
  let hostUserId := aget st.socketToUser sid
  let meta := aget st.roomMetadata roomId
  if (meta.bind (fun m => m.hostId)) ≠ hostUserId then .ok (st, [])
  else
    match meta with
    | none => .error ()
    | some m =>
      let m1 := { m with waitingRoom := !m.waitingRoom }
      let st1 := { st with roomMetadata := aset st.roomMetadata roomId m1 }
      .ok (st1, [(Target.roomAll roomId, Msg.roomSettingsUpdate (getRoomSettings st1 roomId)),
                 (Target.broadcast, Msg.roomsUpdate (getPublicRooms st1))])

/-- Emissions of a host transfer (src/server.ts lines 382-397 and
471-484), evaluated after `meta.hostId` has been updated. -/
def hostTransferEmits (st : ServerState) (roomId nh : String) : List Emit :=
  match otruthy (firstSock st.socketToUser nh) with
  | some hs =>
    [(Target.socket hs, Msg.hostChanged true),
     (Target.socket hs, Msg.roomSettingsUpdate (getRoomSettings st roomId))] ++
    (match aget st.waitingRooms roomId with
     | some w => if w = [] then [] else [(Target.socket hs, Msg.waitingRoomUpdate roomId (waitingPayload w))]
     | none => [])
  | none => []

/-- Empty-room cleanup (src/server.ts lines 401-420 and 488-506): delete
the room and its metadata, notify every waiting user whose socket is still
connected with `room-closed` (dropping their session binding), and delete
the waiting map. -/
def deleteEmptyRoom (st : ServerState) (roomId : String) : ServerState × List Emit :=
  let st0 := { st with rooms := adel st.rooms roomId,
                       roomMetadata := adel st.roomMetadata roomId }
  match aget st0.waitingRooms roomId with
  | some w =>
    let closeEmits := w.filterMap (fun p =>
      if p.2.socketId ∈ st0.connected then
        some ((Target.socket p.2.socketId : Target), Msg.roomClosed roomId)
      else none)
    let stu1 := w.foldl (fun acc p =>
      if p.2.socketId ∈ st0.connected then adel acc p.2.socketId else acc) st0.socketToUser
    ({ st0 with socketToUser := stu1, waitingRooms := adel st0.waitingRooms roomId }, closeEmits)
  | none => (st0, [])

/-- Shared body of `leave-room` and `disconnect` once the room's member
set is consulted: remove the member, transfer the host if needed, and run
the empty-room cleanup (src/server.ts lines 371-421 and 461-506). -/
def memberExit (st : ServerState) (roomId userId : String) : ServerState × List Emit :=
  match aget st.rooms roomId with
  | none => (st, [])
  | some mem =>
    let mem1 := sdel mem userId
    let stA := { st with rooms := aset st.rooms roomId mem1 }
    let (stB, hostEmits) :=
      match aget stA.roomMetadata roomId, mem1 with
      | some m, nh :: _ =>
        if m.hostId = some userId then
          let stB0 := { stA with
            roomMetadata := aset stA.roomMetadata roomId { m with hostId := some nh } }
          (stB0, hostTransferEmits stB0 roomId nh)
        else (stA, ([] : List Emit))
      | _, _ => (stA, ([] : List Emit))
    if mem1 = [] then
      let (stC, closeEmits) := deleteEmptyRoom stB roomId
      (stC, hostEmits ++ closeEmits)
    else (stB, hostEmits)

/-- The `leave-room` handler (src/server.ts lines 363-432). -/
def leaveRoom (st : ServerState) (sid roomId userId : String) : ServerState × List Emit :=
  let st0 := { st with channels := st.channels.filter (fun p => !(p.1 = sid && p.2 = roomId)) }
  let (st2, innerEmits) := memberExit st0 roomId userId
  let st3 := { st2 with userToRoom := adel st2.userToRoom userId,
                        userNames := adel st2.userNames userId }
  (st3, innerEmits ++
    [(Target.roomExceptSender roomId sid, Msg.userDisconnected userId),
     (Target.broadcast, Msg.roomsUpdate (getPublicRooms st3))])

/-- Waiting-room scan of the `disconnect` handler (src/server.ts lines
440-458): the first room whose waiting map holds the user is cleaned up
and its host (if resolvable) notified; the loop then breaks. -/
def disconnectWaitingScan (st : ServerState) (odId : String) : ServerState × List Emit :=
  match st.waitingRooms.find? (fun p => (aget p.2 odId).isSome) with
  | none => (st, [])
  | some (rid, w) =>
    let w1 := adel w odId
    let stW := { st with waitingRooms := aset st.waitingRooms rid w1 }
    let em :=
      match aget stW.roomMetadata rid with
      | some m =>
        match otruthy m.hostId with
        | some h =>
          match otruthy (firstSock stW.socketToUser h) with
          | some hs => [((Target.socket hs : Target), Msg.waitingRoomUpdate rid (waitingPayload w1))]
          | none => []
        | none => []
      | none => []
    (stW, em)

/-- The `disconnect` handler (src/server.ts lines 434-516).  The socket is
already out of the socket registry and its channels when the handler
runs. -/
def disconnectH (st : ServerState) (sid : String) : ServerState × List Emit :=
  let st0 := { st with connected := sdel st.connected sid,
                       channels := st.channels.filter (fun p => p.1 ≠ sid) }
  match otruthy (aget st0.socketToUser sid) with
  | none => (st0, [])
  | some odId =>
    let roomId := aget st0.userToRoom odId
    let (st1, wEmits) := disconnectWaitingScan st0 odId
    let (st2, rEmits) :=
      match otruthy roomId with
      | none => (st1, ([] : List Emit))
      | some r =>
        let (stC, exitEmits) := memberExit st1 r odId
        (stC, exitEmits ++
          [(Target.roomExceptSender r sid, Msg.userDisconnected odId),
           (Target.broadcast, Msg.roomsUpdate (getPublicRooms stC))])
    let st3 := { st2 with socketToUser := adel st2.socketToUser sid,
                          userToRoom := adel st2.userToRoom odId,
                          userNames := adel st2.userNames odId }
    (st3, wEmits ++ rEmits)

/-- Payload of a relayed `offer` / `answer`. -/
structure OfferPayload where
  targetUserId : String
  userName : String
  isScreenShare : Bool
  body : String
deriving DecidableEq

/-- Sender's current room for the negotiation relays:
`userToRoom.get(socketToUser.get(socket.id) || '')`. -/
def senderRoom (st : ServerState) (sid : String) : Option String :=
  aget st.userToRoom ((aget st.socketToUser sid).getD "")

/-- The `offer` relay handler (src/server.ts lines 304-315). -/
def offerH (st : ServerState) (sid : String) (p : OfferPayload) : ServerState × List Emit :=
  match otruthy (senderRoom st sid) with
  | some r => (st, [(Target.roomExceptSender r sid,
      Msg.offerRelay (aget st.socketToUser sid) p.userName p.isScreenShare p.body p.targetUserId)])
  | none => (st, [])

/-- The `answer` relay handler (src/server.ts lines 317-328). -/
def answerH (st : ServerState) (sid : String) (p : OfferPayload) : ServerState × List Emit :=
  match otruthy (senderRoom st sid) with
  | some r => (st, [(Target.roomExceptSender r sid,
      Msg.answerRelay (aget st.socketToUser sid) p.userName p.isScreenShare p.body p.targetUserId)])
  | none => (st, [])

/-- The `ice-candidate` relay handler (src/server.ts lines 330-339). -/
def iceH (st : ServerState) (sid targetUserId body : String) : ServerState × List Emit :=
  match otruthy (senderRoom st sid) with
  | some r => (st, [(Target.roomExceptSender r sid,
      Msg.iceRelay (aget st.socketToUser sid) body targetUserId)])
  | none => (st, [])

/-- A socket connects (`io.on('connection', ...)`). -/
def connectH (st : ServerState) (sid : String) : ServerState × List Emit :=
  ({ st with connected := sadd st.connected sid }, [])

/-- The `get-rooms` handler (src/server.ts lines 83-85). -/
def getRoomsH (st : ServerState) (sid : String) : ServerState × List Emit :=
  (st, [(Target.socket sid, Msg.roomsUpdate (getPublicRooms st))])

/-- One relayed client event of the Room Authority. -/
inductive Event where
  | connectEv (sid : String)
  | joinRoomEv (sid roomId odId : String) (config : Option JoinConfig) (userName : Option String)
  | admitUserEv (sid roomId odId : String)
  | denyUserEv (sid roomId odId : String)
  | toggleLockEv (sid roomId : String)
  | toggleWaitingRoomEv (sid roomId : String)
  | leaveRoomEv (sid roomId userId : String)
  | disconnectEv (sid : String)
  | getRoomsEv (sid : String)
  | pingEv (sid : String)
  | offerEv (sid : String) (p : OfferPayload)
  | answerEv (sid : String) (p : OfferPayload)
  | iceEv (sid targetUserId body : String)
  | chatEv (sid roomId body : String)
  | reactionEv (sid roomId body : String)
  | captionEv (sid roomId body : String)
  | whiteboardDrawEv (sid roomId body : String)
  | whiteboardClearEv (sid roomId : String)
deriving DecidableEq

/-- Dispatch one event to its handler.  The TypeError of the two toggle
handlers is thrown before any state mutation, so the crashed process state
coincides with the pre-event state. -/
def stepE (st : ServerState) (e : Event) : ServerState × List Emit :=
  match e with
  | .connectEv sid => connectH st sid
  | .joinRoomEv sid r u c un => joinRoom st sid r u c un
  | .admitUserEv sid r u => admitUser st sid r u
  | .denyUserEv sid r u => denyUser st sid r u
  | .toggleLockEv sid r =>
    match toggleLockE st sid r with
    | .ok res => res
    | .error _ => (st, [])
  | .toggleWaitingRoomEv sid r =>
    match toggleWaitingRoomE st sid r with
    | .ok res => res
    | .error _ => (st, [])
  | .leaveRoomEv sid r u => leaveRoom st sid r u
  | .disconnectEv sid => disconnectH st sid
  | .getRoomsEv sid => getRoomsH st sid
  | .pingEv _ => (st, [])
  | .offerEv sid p => offerH st sid p
  | .answerEv sid p => answerH st sid p
  | .iceEv sid t b => iceH st sid t b
  | .chatEv sid r b => (st, [(Target.roomExceptSender r sid, Msg.chatRelay b)])
  | .reactionEv sid r b => (st, [(Target.roomExceptSender r sid, Msg.reactionRelay b)])
  | .captionEv sid r b => (st, [(Target.roomExceptSender r sid, Msg.captionRelay b)])
  | .whiteboardDrawEv sid r b => (st, [(Target.roomExceptSender r sid, Msg.whiteboardDrawRelay b)])
  | .whiteboardClearEv sid r => (st, [(Target.roomExceptSender r sid, Msg.whiteboardClearRelay)])

/-- State after one event. -/
def step (st : ServerState) (e : Event) : ServerState :=
  (stepE st e).1

/-- State reached from process start by a sequence of events. -/
def run (evs : List Event) : ServerState :=
  evs.foldl step initState

/-!  Client-side Peer Session Negotiator (src/hooks/useWebRTC.ts).
The browser `RTCPeerConnection` is abstracted to the negotiation state the
claims are about: whether a remote description has been applied and the
ordered list of candidates successfully added.  -/

/-- Abstracted `RTCPeerConnection`. -/
structure RTCPeer where
  remoteDescSet : Bool
  appliedCandidates : List String
deriving DecidableEq

/-- Platform `addIceCandidate`: rejects with InvalidStateError when no
remote description has been applied yet, otherwise appends the candidate. -/
def addIceCandidate (pc : RTCPeer) (c : String) : Except Unit RTCPeer :=
  if pc.remoteDescSet then .ok { pc with appliedCandidates := pc.appliedCandidates ++ [c] }
  else .error ()

/-- Platform `setRemoteDescription` (as used for offers and answers). -/
def setRemoteDescription (pc : RTCPeer) : RTCPeer :=
  { pc with remoteDescSet := true }

/-- Negotiator state: `peersRef` plus the auxiliary display maps, with a
counter of `console.error` calls for dropped candidates. -/
structure ClientState where
  peers : List (String × RTCPeer)
  peerNames : List (String × String)
  peerScreenShares : List (String × Bool)
  errorsLogged : Nat
deriving DecidableEq

/-- `createPeerConnection` (src/hooks/useWebRTC.ts lines 153-192): reuse
an existing connection, else register a fresh one (no remote description,
no applied candidates). -/
def createPeerConnection (cs : ClientState) (targetUserId : String) : ClientState :=
  match aget cs.peers targetUserId with
  | some _ => cs
  | none => { cs with peers := aset cs.peers targetUserId ⟨false, []⟩ }

/-- `handleOffer` (src/hooks/useWebRTC.ts lines 209-237) restricted to its
effect on negotiation state: record name and screen-share flag, create or
reuse the connection, apply the offer as remote description.  (The answer
it then produces and relays does not touch candidate state.) -/
def handleOffer (cs : ClientState) (callerId callerName : String) (isScreenShareRemote : Bool) :
    ClientState :=
  let cs1 := { cs with peerNames := aset cs.peerNames callerId callerName,
                       peerScreenShares := aset cs.peerScreenShares callerId isScreenShareRemote }
  let cs2 := createPeerConnection cs1 callerId
  match aget cs2.peers callerId with
  | none => cs2
  | some pc => { cs2 with peers := aset cs2.peers callerId (setRemoteDescription pc) }

/-- `handleAnswer` (src/hooks/useWebRTC.ts lines 239-258): record name and
screen-share flag; apply the answer as remote description on the matching
connection, no-op if none exists. -/
def handleAnswer (cs : ClientState) (callerId callerName : String) (isScreenShareRemote : Bool) :
    ClientState :=
  let cs1 := { cs with peerNames := aset cs.peerNames callerId callerName,
                       peerScreenShares := aset cs.peerScreenShares callerId isScreenShareRemote }
  match aget cs1.peers callerId with
  | none => cs1
  | some pc => { cs1 with peers := aset cs1.peers callerId (setRemoteDescription pc) }

/-- `handleIceCandidate` (src/hooks/useWebRTC.ts lines 260-269): the
candidate is passed straight to `addIceCandidate`; a failure is caught and
logged (`console.error`) and the candidate is dropped.  The handler keeps
no pending-candidate buffer. -/
def handleIceCandidate (cs : ClientState) (callerId c : String) : ClientState :=
  match aget cs.peers callerId with
  | none => cs
  | some pc =>
    match addIceCandidate pc c with
    | .ok pc1 => { cs with peers := aset cs.peers callerId pc1 }
    | .error _ => { cs with errorsLogged := cs.errorsLogged + 1 }

/-!  Statistics sampler (src/hooks/useWebRTC.ts lines 120-133), embedded
over exact rationals.  -/

/-- Loss percentage of one sample window: deltas of the cumulative
lost/received counters against the previous sample, a ratio only when the
window saw at least one packet. -/
def computeLossPercentage (cumLost cumReceived prevLost prevReceived : Int) : ℚ :=
  let deltaLost := cumLost - prevLost
  let deltaReceived := cumReceived - prevReceived
  let totalPackets := deltaLost + deltaReceived
  if 0 < totalPackets then ((deltaLost : ℚ) / ((totalPackets : Int) : ℚ)) * 100 else 0

/-- One sampler pass for one peer: previous sample defaults to zero
counters (`prevStatsRef.current.get(peerId) || { 0, 0 }`), and the stored
previous sample is replaced by the current cumulative counters. -/
def sampleLoss (cumLost cumReceived : Int) (prev : Option (Int × Int)) : ℚ × (Int × Int) :=
  let p := prev.getD (0, 0)
  (computeLossPercentage cumLost cumReceived p.1 p.2, (cumLost, cumReceived))

/-- The lifetime loss ratio, stated from the design document's words as
the computation the sampler must NOT use: cumulative lost over cumulative
total. -/
def lifetimeLossPercentage (cumLost cumReceived : Int) : ℚ :=
  if 0 < cumLost + cumReceived then
    ((cumLost : ℚ) / ((cumLost + cumReceived : Int) : ℚ)) * 100
  else 0

/-!  Authority-state invariants.  -/

/-- A room has metadata exactly when it has a member set. -/
def metaRoomsAligned (st : ServerState) : Prop :=
  ∀ r, (aget st.roomMetadata r).isSome ↔ (aget st.rooms r).isSome

/-- A waiting map only exists for a room that has metadata. -/
def waitingHasMeta (st : ServerState) : Prop :=
  ∀ r, (aget st.waitingRooms r).isSome → (aget st.roomMetadata r).isSome

/-- Every room present in the membership map has at least one member. -/
def roomsNonempty (st : ServerState) : Prop :=
  ∀ r mem, aget st.rooms r = some mem → mem ≠ []

/-- Every existing room has a host and the host is a current member. -/
def hostIsMember (st : ServerState) : Prop :=
  ∀ r m mem, aget st.roomMetadata r = some m → aget st.rooms r = some mem →
    ∃ h, m.hostId = some h ∧ h ∈ mem

/-- The combined authority-state invariant. -/
def Inv (st : ServerState) : Prop :=
  metaRoomsAligned st ∧ waitingHasMeta st ∧ roomsNonempty st ∧ hostIsMember st

/-- The lock flag never turns on between two states: any room locked in
the second state was already locked in the first. -/
def lockPres (st st' : ServerState) : Prop :=
  ∀ r m', aget st'.roomMetadata r = some m' → m'.isLocked = true →
    ∃ m, aget st.roomMetadata r = some m ∧ m.isLocked = true



theorem aget_aset_self {α : Type} (m : List (String × α)) (k : String) (v : α) :
    aget (aset m k v) k = some v := by
  induction m with
  | nil => simp [aset, aget]
  | cons p t ih =>
    by_cases h : p.1 = k
    · simp [aset, h, aget]
    · simp [aset, h, aget, ih]

theorem aget_aset_ne {α : Type} (m : List (String × α)) (k k' : String) (v : α) (h : k' ≠ k) :
    aget (aset m k v) k' = aget m k' := by
  induction m with
  | nil => simp [aset, aget, Ne.symm h]
  | cons p t ih =>
    by_cases hk : p.1 = k
    · simp [aset, hk, aget, Ne.symm h]
    · simp [aset, hk, aget, ih]

theorem aget_adel_self {α : Type} (m : List (String × α)) (k : String) :
    aget (adel m k) k = none := by
  induction m with
  | nil => simp [adel, aget]
  | cons p t ih =>
    by_cases h : p.1 = k
    · simpa [adel, List.filter_cons, h, aget] using ih
    · simpa [adel, List.filter_cons, h, aget] using ih

theorem aget_adel_ne {α : Type} (m : List (String × α)) (k k' : String) (h : k' ≠ k) :
    aget (adel m k) k' = aget m k' := by
  induction m with
  | nil => simp [adel, aget]
  | cons p t ih =>
    by_cases hk : p.1 = k
    · have h2 : ¬p.1 = k' := by rw [hk]; exact Ne.symm h
      simpa [adel, List.filter_cons, hk, aget, h2, Ne.symm h] using ih
    · by_cases hk' : p.1 = k'
      · simp [adel, List.filter_cons, hk, aget, hk', h]
      · simpa [adel, List.filter_cons, hk, aget, hk', h] using ih

theorem mem_aget_isSome {α : Type} {m : List (String × α)} {k : String} {v : α}
    (h : (k, v) ∈ m) : (aget m k).isSome := by
  induction m with
  | nil => cases h
  | cons p t ih =>
    rcases List.mem_cons.1 h with h1 | h2
    · simp [aget, ← h1]
    · by_cases hk : p.1 = k
      · simp [aget, hk]
      · simpa [aget, hk] using ih h2

theorem mem_sadd {s : List String} {x y : String} : y ∈ sadd s x ↔ y ∈ s ∨ y = x := by
  unfold sadd
  by_cases h : x ∈ s
  · simp only [if_pos h]
    exact ⟨fun hy => Or.inl hy, fun hy => hy.elim id (fun e => e ▸ h)⟩
  · simp [if_neg h]

theorem sadd_ne_nil {s : List String} {x : String} : sadd s x ≠ [] := by
  intro h
  have : x ∈ sadd s x := mem_sadd.2 (Or.inr rfl)
  rw [h] at this
  cases this

theorem mem_sdel {s : List String} {x y : String} : y ∈ sdel s x ↔ y ∈ s ∧ y ≠ x := by
  simp [sdel, List.mem_filter]

theorem sdel_eq_nil_not_mem {s : List String} {x y : String} (h : sdel s x = [])
    (hy : y ∈ s) : y = x := by
  by_contra hne
  have : y ∈ sdel s x := mem_sdel.2 ⟨hy, hne⟩
  rw [h] at this
  cases this

theorem inv_initState : Inv initState := by
  refine ⟨?_, ?_, ?_, ?_⟩ <;> intro r <;> simp [initState, aget, metaRoomsAligned,
    waitingHasMeta, roomsNonempty, hostIsMember]

theorem inv_joinWaiting {st : ServerState} (sid roomId odId : String)
    (userName : Option String) (m : RoomMeta)
    (hm : aget st.roomMetadata roomId = some m) (h : Inv st) :
    Inv (joinWaiting st sid roomId odId userName m).1 := by
  obtain ⟨h1, h2, h3, h4⟩ := h
  simp only [joinWaiting]
  refine ⟨fun r => ?_, fun r => ?_, fun r mem => ?_, fun r m' mem => ?_⟩
  · exact h1 r
  · by_cases hr : r = roomId
    · subst hr
      intro _
      simp [hm]
    · simpa [aget_aset_ne _ _ _ _ hr] using h2 r
  · exact h3 r mem
  · exact h4 r m' mem

theorem inv_joinDirect_new {st : ServerState} (sid roomId odId : String)
    (config : Option JoinConfig) (h : Inv st) :
    Inv (joinDirect st sid roomId odId config true).1 := by
  obtain ⟨h1, h2, h3, h4⟩ := h
  simp only [joinDirect, if_true, aget_aset_self]
  refine ⟨fun r => ?_, fun r => ?_, fun r mem => ?_, fun r m' mem => ?_⟩
  · by_cases hr : r = roomId
    · subst hr
      simp [aget_aset_self]
    · simpa [aget_aset_ne _ _ _ _ hr] using h1 r
  · by_cases hr : r = roomId
    · subst hr
      simp [aget_aset_self]
    · simpa [aget_aset_ne _ _ _ _ hr] using h2 r
  · by_cases hr : r = roomId
    · subst hr
      simp only [aget_aset_self, Option.some.injEq]
      rintro rfl
      exact sadd_ne_nil
    · rw [aget_aset_ne _ _ _ _ hr, aget_aset_ne _ _ _ _ hr]
      exact h3 r mem
  · by_cases hr : r = roomId
    · subst hr
      simp only [aget_aset_self, Option.some.injEq]
      rintro rfl rfl
      exact ⟨odId, rfl, mem_sadd.2 (Or.inr rfl)⟩
    · rw [aget_aset_ne _ _ _ _ hr, aget_aset_ne _ _ _ _ hr, aget_aset_ne _ _ _ _ hr]
      exact h4 r m' mem

theorem inv_joinDirect_old {st : ServerState} (sid roomId odId : String)
    (config : Option JoinConfig) (h : Inv st) :
    Inv (joinDirect st sid roomId odId config false).1 := by
  obtain ⟨h1, h2, h3, h4⟩ := h
  cases hmem : aget st.rooms roomId with
  | none =>
    simp only [joinDirect, Bool.false_eq_true, if_false, hmem]
    exact ⟨h1, h2, h3, h4⟩
  | some mem =>
    simp only [joinDirect, Bool.false_eq_true, if_false, hmem]
    refine ⟨fun r => ?_, fun r => ?_, fun r mem' => ?_, fun r m' mem' => ?_⟩
    · by_cases hr : r = roomId
      · subst hr
        simp [aget_aset_self, hmem, (h1 r).2 (by simp [hmem])]
      · simpa [aget_aset_ne _ _ _ _ hr] using h1 r
    · exact h2 r
    · by_cases hr : r = roomId
      · subst hr
        simp only [aget_aset_self, Option.some.injEq]
        rintro rfl
        exact sadd_ne_nil
      · rw [aget_aset_ne _ _ _ _ hr]
        exact h3 r mem'
    · by_cases hr : r = roomId
      · subst hr
        simp only [aget_aset_self, Option.some.injEq]
        intro hm1 hm2
        obtain ⟨hh, hh1, hh2⟩ := h4 r m' mem hm1 hmem
        exact ⟨hh, hh1, hm2 ▸ mem_sadd.2 (Or.inl hh2)⟩
      · rw [aget_aset_ne _ _ _ _ hr]
        exact h4 r m' mem'

theorem inv_joinRoom {st : ServerState} (sid roomId odId : String)
    (config : Option JoinConfig) (userName : Option String) (h : Inv st) :
    Inv (joinRoom st sid roomId odId config userName).1 := by
  simp only [joinRoom]
  cases otruthy userName with
  | none =>
    cases hm : aget st.roomMetadata roomId with
    | none => exact inv_joinDirect_new sid roomId odId config h
    | some m =>
      by_cases hl : m.isLocked
      · simp [hm, hl]
        exact h
      · by_cases hw : m.waitingRoom = true ∧ m.hostId ≠ some odId
        · simp only [hm, if_neg hl, hw.1, decide_eq_true hw.2, Bool.and_self, if_true]
          exact inv_joinWaiting sid roomId odId userName m hm h
        · simp only [hm, if_neg hl]
          have hfalse : (m.waitingRoom && decide (m.hostId ≠ some odId)) = false := by
            rcases Decidable.not_and_iff_or_not.1 hw with hw1 | hw2
            · simp [hw1]
            · simp [hw2]
          rw [hfalse]
          simp only [Bool.false_eq_true, if_false]
          exact inv_joinDirect_old sid roomId odId config h
  | some un =>
    have h' : Inv { st with userNames := aset st.userNames odId un } := h
    cases hm : aget st.roomMetadata roomId with
    | none => exact inv_joinDirect_new sid roomId odId config h'
    | some m =>
      by_cases hl : m.isLocked
      · simp [hm, hl]
        exact h'
      · by_cases hw : m.waitingRoom = true ∧ m.hostId ≠ some odId
        · simp only [hm, if_neg hl, hw.1, decide_eq_true hw.2, Bool.and_self, if_true]
          exact inv_joinWaiting sid roomId odId userName m hm h'
        · simp only [hm, if_neg hl]
          have hfalse : (m.waitingRoom && decide (m.hostId ≠ some odId)) = false := by
            rcases Decidable.not_and_iff_or_not.1 hw with hw1 | hw2
            · simp [hw1]
            · simp [hw2]
          rw [hfalse]
          simp only [Bool.false_eq_true, if_false]
          exact inv_joinDirect_old sid roomId odId config h'

theorem inv_admitUser {st : ServerState} (sid roomId odId : String) (h : Inv st) :
    Inv (admitUser st sid roomId odId).1 := by
  obtain ⟨h1, h2, h3, h4⟩ := h
  simp only [admitUser]
  by_cases hg : ((aget st.roomMetadata roomId).bind fun m => m.hostId) ≠ aget st.socketToUser sid
  · simp only [if_pos hg]
    exact ⟨h1, h2, h3, h4⟩
  · simp only [if_neg hg]
    cases hw : aget st.waitingRooms roomId with
    | none => exact ⟨h1, h2, h3, h4⟩
    | some w =>
      dsimp only
      cases hwu : aget w odId with
      | none => exact ⟨h1, h2, h3, h4⟩
      | some wu =>
        have hmetaSome : (aget st.roomMetadata roomId).isSome := h2 roomId (by simp [hw])
        dsimp only
        by_cases hc : wu.socketId ∈ st.connected
        · simp only [if_pos hc]
          cases hmem : aget st.rooms roomId with
          | none =>
            dsimp only
            refine ⟨h1, fun r => ?_, h3, h4⟩
            by_cases hr : r = roomId
            · subst hr
              intro _
              exact hmetaSome
            · simpa [aget_aset_ne _ _ _ _ hr] using h2 r
          | some l =>
            dsimp only
            refine ⟨fun r => ?_, fun r => ?_, fun r mem' => ?_, fun r m' mem' => ?_⟩
            · by_cases hr : r = roomId
              · subst hr
                simp [aget_aset_self, hmetaSome]
              · simpa [aget_aset_ne _ _ _ _ hr] using h1 r
            · by_cases hr : r = roomId
              · subst hr
                intro _
                exact hmetaSome
              · simpa [aget_aset_ne _ _ _ _ hr] using h2 r
            · by_cases hr : r = roomId
              · subst hr
                simp only [aget_aset_self, Option.some.injEq]
                rintro rfl
                exact sadd_ne_nil
              · rw [aget_aset_ne _ _ _ _ hr]
                exact h3 r mem'
            · by_cases hr : r = roomId
              · subst hr
                simp only [aget_aset_self, Option.some.injEq]
                intro hm1 hm2
                obtain ⟨hh, hh1, hh2⟩ := h4 r m' l hm1 hmem
                exact ⟨hh, hh1, hm2 ▸ mem_sadd.2 (Or.inl hh2)⟩
              · rw [aget_aset_ne _ _ _ _ hr]
                exact h4 r m' mem'
        · simp only [if_neg hc]
          refine ⟨h1, fun r => ?_, h3, h4⟩
          by_cases hr : r = roomId
          · subst hr
            intro _
            exact hmetaSome
          · simpa [aget_aset_ne _ _ _ _ hr] using h2 r

theorem inv_denyUser {st : ServerState} (sid roomId odId : String) (h : Inv st) :
    Inv (denyUser st sid roomId odId).1 := by
  obtain ⟨h1, h2, h3, h4⟩ := h
  simp only [denyUser]
  by_cases hg : ((aget st.roomMetadata roomId).bind fun m => m.hostId) ≠ aget st.socketToUser sid
  · simp only [if_pos hg]
    exact ⟨h1, h2, h3, h4⟩
  · simp only [if_neg hg]
    cases hw : aget st.waitingRooms roomId with
    | none => exact ⟨h1, h2, h3, h4⟩
    | some w =>
      dsimp only
      cases hwu : aget w odId with
      | none => exact ⟨h1, h2, h3, h4⟩
      | some wu =>
        have hmetaSome : (aget st.roomMetadata roomId).isSome := h2 roomId (by simp [hw])
        dsimp only
        by_cases hc : wu.socketId ∈ st.connected
        · simp only [if_pos hc]
          refine ⟨h1, fun r => ?_, h3, h4⟩
          by_cases hr : r = roomId
          · subst hr
            intro _
            exact hmetaSome
          · simpa [aget_aset_ne _ _ _ _ hr] using h2 r
        · simp only [if_neg hc]
          refine ⟨h1, fun r => ?_, h3, h4⟩
          by_cases hr : r = roomId
          · subst hr
            intro _
            exact hmetaSome
          · simpa [aget_aset_ne _ _ _ _ hr] using h2 r

theorem inv_metaUpdate {st : ServerState} (roomId : String) (m m1 : RoomMeta)
    (hm : aget st.roomMetadata roomId = some m) (hhost : m1.hostId = m.hostId)
    (h : Inv st) : Inv { st with roomMetadata := aset st.roomMetadata roomId m1 } := by
  obtain ⟨h1, h2, h3, h4⟩ := h
  refine ⟨fun r => ?_, fun r => ?_, h3, fun r m' mem' => ?_⟩
  · by_cases hr : r = roomId
    · subst hr
      simpa [aget_aset_self] using (h1 r).1 (by simp [hm])
    · simpa [aget_aset_ne _ _ _ _ hr] using h1 r
  · by_cases hr : r = roomId
    · subst hr
      intro _
      simp [aget_aset_self]
    · intro hws
      rw [aget_aset_ne _ _ _ _ hr]
      exact h2 r hws
  · by_cases hr : r = roomId
    · subst hr
      rw [aget_aset_self]
      intro hm1 hm2
      obtain ⟨hh, hh1, hh2⟩ := h4 r m mem' hm hm2
      cases hm1
      exact ⟨hh, hhost.trans hh1, hh2⟩
    · rw [aget_aset_ne _ _ _ _ hr]
      exact h4 r m' mem'

theorem inv_toggleLockStep {st : ServerState} (sid roomId : String) (h : Inv st) :
    Inv (stepE st (Event.toggleLockEv sid roomId)).1 := by
  simp only [stepE, toggleLockE]
  by_cases hg : ((aget st.roomMetadata roomId).bind fun m => m.hostId) ≠ aget st.socketToUser sid
  · simp only [if_pos hg]
    exact h
  · simp only [if_neg hg]
    cases hm : aget st.roomMetadata roomId with
    | none => exact h
    | some m => exact inv_metaUpdate roomId m _ hm rfl h

theorem inv_toggleWaitingRoomStep {st : ServerState} (sid roomId : String) (h : Inv st) :
    Inv (stepE st (Event.toggleWaitingRoomEv sid roomId)).1 := by
  simp only [stepE, toggleWaitingRoomE]
  by_cases hg : ((aget st.roomMetadata roomId).bind fun m => m.hostId) ≠ aget st.socketToUser sid
  · simp only [if_pos hg]
    exact h
  · simp only [if_neg hg]
    cases hm : aget st.roomMetadata roomId with
    | none => exact h
    | some m => exact inv_metaUpdate roomId m _ hm rfl h

theorem inv_memberExit {st : ServerState} (roomId userId : String) (h : Inv st) :
    Inv (memberExit st roomId userId).1 := by
  obtain ⟨h1, h2, h3, h4⟩ := h
  simp only [memberExit]
  cases hmem : aget st.rooms roomId with
  | none => exact ⟨h1, h2, h3, h4⟩
  | some mem =>
    dsimp only
    have hmeta : (aget st.roomMetadata roomId).isSome = true := (h1 roomId).2 (by simp [hmem])
    obtain ⟨m0, hm0⟩ := Option.isSome_iff_exists.1 hmeta
    rw [hm0]
    cases hmem1 : sdel mem userId with
    | nil =>
      dsimp only
      rw [if_pos rfl]
      simp only [deleteEmptyRoom]
      cases hw : aget st.waitingRooms roomId with
      | none =>
        dsimp only
        refine ⟨fun r => ?_, fun r => ?_, fun r mem' => ?_, fun r m' mem' => ?_⟩
        · by_cases hr : r = roomId
          · subst hr
            simp [aget_adel_self]
          · simpa [aget_adel_ne _ _ _ hr, aget_aset_ne _ _ _ _ hr] using h1 r
        · by_cases hr : r = roomId
          · subst hr
            simp [hw]
          · intro hws
            rw [aget_adel_ne _ _ _ hr]
            exact h2 r hws
        · by_cases hr : r = roomId
          · subst hr
            simp [aget_adel_self]
          · rw [aget_adel_ne _ _ _ hr, aget_aset_ne _ _ _ _ hr]
            exact h3 r mem'
        · by_cases hr : r = roomId
          · subst hr
            simp [aget_adel_self]
          · rw [aget_adel_ne _ _ _ hr, aget_adel_ne _ _ _ hr, aget_aset_ne _ _ _ _ hr]
            exact h4 r m' mem'
      | some w =>
        dsimp only
        refine ⟨fun r => ?_, fun r => ?_, fun r mem' => ?_, fun r m' mem' => ?_⟩
        · by_cases hr : r = roomId
          · subst hr
            simp [aget_adel_self]
          · simpa [aget_adel_ne _ _ _ hr, aget_aset_ne _ _ _ _ hr] using h1 r
        · by_cases hr : r = roomId
          · subst hr
            simp [aget_adel_self]
          · intro hws
            rw [aget_adel_ne _ _ _ hr]
            refine h2 r ?_
            rwa [aget_adel_ne _ _ _ hr] at hws
        · by_cases hr : r = roomId
          · subst hr
            simp [aget_adel_self]
          · rw [aget_adel_ne _ _ _ hr, aget_aset_ne _ _ _ _ hr]
            exact h3 r mem'
        · by_cases hr : r = roomId
          · subst hr
            simp [aget_adel_self]
          · rw [aget_adel_ne _ _ _ hr, aget_adel_ne _ _ _ hr, aget_aset_ne _ _ _ _ hr]
            exact h4 r m' mem'
    | cons nh rest =>
      dsimp only
      by_cases hhost : m0.hostId = some userId
      · rw [if_pos hhost]
        dsimp only
        rw [if_neg (List.cons_ne_nil nh rest)]
        refine ⟨fun r => ?_, fun r => ?_, fun r mem' => ?_, fun r m' mem' => ?_⟩
        · by_cases hr : r = roomId
          · subst hr
            simp [aget_aset_self]
          · simpa [aget_aset_ne _ _ _ _ hr] using h1 r
        · by_cases hr : r = roomId
          · subst hr
            intro _
            simp [aget_aset_self]
          · intro hws
            rw [aget_aset_ne _ _ _ _ hr]
            exact h2 r hws
        · by_cases hr : r = roomId
          · subst hr
            simp only [aget_aset_self, Option.some.injEq]
            rintro rfl
            exact List.cons_ne_nil nh rest
          · rw [aget_aset_ne _ _ _ _ hr]
            exact h3 r mem'
        · by_cases hr : r = roomId
          · subst hr
            simp only [aget_aset_self, Option.some.injEq]
            rintro rfl rfl
            exact ⟨nh, rfl, List.mem_cons_self nh rest⟩
          · rw [aget_aset_ne _ _ _ _ hr, aget_aset_ne _ _ _ _ hr]
            exact h4 r m' mem'
      · rw [if_neg hhost]
        dsimp only
        rw [if_neg (List.cons_ne_nil nh rest)]
        refine ⟨fun r => ?_, fun r => ?_, fun r mem' => ?_, fun r m' mem' => ?_⟩
        · by_cases hr : r = roomId
          · subst hr
            simp [aget_aset_self, hm0]
          · simpa [aget_aset_ne _ _ _ _ hr] using h1 r
        · exact h2 r
        · by_cases hr : r = roomId
          · subst hr
            simp only [aget_aset_self, Option.some.injEq]
            rintro rfl
            exact List.cons_ne_nil nh rest
          · rw [aget_aset_ne _ _ _ _ hr]
            exact h3 r mem'
        · by_cases hr : r = roomId
          · subst hr
            rw [aget_aset_self]
            intro hm1 hm2
            obtain ⟨hh, hh1, hh2⟩ := h4 r m' mem hm1 hmem
            have hne : hh ≠ userId := by
              intro he
              exact hhost (by rw [hm0] at hm1; cases hm1; rw [hh1, he])
            refine ⟨hh, hh1, ?_⟩
            injection hm2 with hm2e
            rw [← hm2e, ← hmem1]
            exact mem_sdel.2 ⟨hh2, hne⟩
          · rw [aget_aset_ne _ _ _ _ hr]
            exact h4 r m' mem'

theorem inv_leaveRoom {st : ServerState} (sid roomId userId : String) (h : Inv st) :
    Inv (leaveRoom st sid roomId userId).1 := by
  simp only [leaveRoom]
  have h0 : Inv { st with
      channels := st.channels.filter (fun p => !(p.1 = sid && p.2 = roomId)) } := h
  exact inv_memberExit roomId userId h0

theorem inv_disconnectWaitingScan {st : ServerState} (odId : String) (h : Inv st) :
    Inv (disconnectWaitingScan st odId).1 := by
  obtain ⟨h1, h2, h3, h4⟩ := h
  simp only [disconnectWaitingScan]
  cases hf : st.waitingRooms.find? (fun p => (aget p.2 odId).isSome) with
  | none => exact ⟨h1, h2, h3, h4⟩
  | some p =>
    obtain ⟨rid, w⟩ := p
    dsimp only
    have hmem : (rid, w) ∈ st.waitingRooms := List.mem_of_find?_eq_some hf
    have hws : (aget st.waitingRooms rid).isSome := mem_aget_isSome hmem
    have hmeta := h2 rid hws
    refine ⟨h1, fun r => ?_, h3, h4⟩
    by_cases hr : r = rid
    · subst hr
      intro _
      exact hmeta
    · intro hw2
      refine h2 r ?_
      rwa [aget_aset_ne _ _ _ _ hr] at hw2

theorem inv_disconnectH {st : ServerState} (sid : String) (h : Inv st) :
    Inv (disconnectH st sid).1 := by
  simp only [disconnectH]
  have h0 : Inv { st with connected := sdel st.connected sid,
                          channels := st.channels.filter (fun p => p.1 ≠ sid) } := h
  cases hsu : otruthy (aget st.socketToUser sid) with
  | none => exact h0
  | some odId =>
    dsimp only
    have hs1 := inv_disconnectWaitingScan odId h0
    cases hrm : otruthy (aget st.userToRoom odId) with
    | none => exact hs1
    | some r => exact inv_memberExit r odId hs1

theorem inv_step {st : ServerState} (e : Event) (h : Inv st) : Inv (step st e) := by
  cases e with
  | connectEv sid => exact h
  | joinRoomEv sid r u c un => exact inv_joinRoom sid r u c un h
  | admitUserEv sid r u => exact inv_admitUser sid r u h
  | denyUserEv sid r u => exact inv_denyUser sid r u h
  | toggleLockEv sid r => exact inv_toggleLockStep sid r h
  | toggleWaitingRoomEv sid r => exact inv_toggleWaitingRoomStep sid r h
  | leaveRoomEv sid r u => exact inv_leaveRoom sid r u h
  | disconnectEv sid => exact inv_disconnectH sid h
  | getRoomsEv sid => exact h
  | pingEv sid => exact h
  | offerEv sid p =>
    simp only [step, stepE, offerH]
    cases otruthy (senderRoom st sid) <;> exact h
  | answerEv sid p =>
    simp only [step, stepE, answerH]
    cases otruthy (senderRoom st sid) <;> exact h
  | iceEv sid t b =>
    simp only [step, stepE, iceH]
    cases otruthy (senderRoom st sid) <;> exact h
  | chatEv sid r b => exact h
  | reactionEv sid r b => exact h
  | captionEv sid r b => exact h
  | whiteboardDrawEv sid r b => exact h
  | whiteboardClearEv sid r => exact h

theorem inv_run (evs : List Event) : Inv (run evs) := by
  have key : ∀ st, Inv st → Inv (evs.foldl step st) := by
    induction evs with
    | nil => exact fun st hst => hst
    | cons e t ih => exact fun st hst => ih (step st e) (inv_step e hst)
  exact key initState inv_initState

theorem aget_of_find? {α : Type} {m : List (String × α)} {p : String × α → Bool}
    {q : String × α} (hnd : (m.map Prod.fst).Nodup) (hf : m.find? p = some q) :
    aget m q.1 = some q.2 := by
  induction m with
  | nil => cases hf
  | cons a t ih =>
    rw [List.find?_cons] at hf
    by_cases hpa : p a = true
    · rw [hpa] at hf
      cases hf
      simp [aget]
    · rw [Bool.not_eq_true] at hpa
      rw [hpa] at hf
      have hq : q ∈ t := List.mem_of_find?_eq_some hf
      have hkey : q.1 ∈ t.map Prod.fst := List.mem_map.2 ⟨q, hq, rfl⟩
      have hne : a.1 ≠ q.1 := by
        intro he
        exact (List.nodup_cons.1 hnd).1 (he ▸ hkey)
      rw [aget]
      rw [if_neg hne]
      exact ih (List.nodup_cons.1 hnd).2 hf

theorem deleteEmptyRoom_spec (st : ServerState) (roomId : String) :
    aget (deleteEmptyRoom st roomId).1.rooms roomId = none ∧
    aget (deleteEmptyRoom st roomId).1.roomMetadata roomId = none ∧
    aget (deleteEmptyRoom st roomId).1.waitingRooms roomId = none ∧
    ∀ p ∈ (aget st.waitingRooms roomId).getD [], p.2.socketId ∈ st.connected →
      (Target.socket p.2.socketId, Msg.roomClosed roomId) ∈ (deleteEmptyRoom st roomId).2 := by
  simp only [deleteEmptyRoom]
  cases hw : aget st.waitingRooms roomId with
  | none =>
    dsimp only
    refine ⟨aget_adel_self _ _, aget_adel_self _ _, hw, ?_⟩
    intro p hp
    cases hp
  | some w =>
    dsimp only
    refine ⟨aget_adel_self _ _, aget_adel_self _ _, aget_adel_self _ _, ?_⟩
    intro p hp hconn
    simp only [Option.getD_some] at hp
    exact List.mem_filterMap.2 ⟨p, hp, by rw [if_pos hconn]⟩

theorem memberExit_empty_cleanup (st : ServerState) (roomId userId : String) (mem : List String)
    (hmem : aget st.rooms roomId = some mem) (hempty : sdel mem userId = []) :
    aget (memberExit st roomId userId).1.rooms roomId = none ∧
    aget (memberExit st roomId userId).1.roomMetadata roomId = none ∧
    aget (memberExit st roomId userId).1.waitingRooms roomId = none ∧
    ∀ p ∈ (aget st.waitingRooms roomId).getD [], p.2.socketId ∈ st.connected →
      (Target.socket p.2.socketId, Msg.roomClosed roomId) ∈ (memberExit st roomId userId).2 := by
  simp only [memberExit, hmem]
  rw [hempty]
  cases hmeta : aget st.roomMetadata roomId with
  | none =>
    dsimp only
    rw [if_pos rfl]
    have hspec := deleteEmptyRoom_spec
      { st with rooms := aset st.rooms roomId [] } roomId
    exact ⟨hspec.1, hspec.2.1, hspec.2.2.1, fun p hp hc => List.mem_append_right _
      (hspec.2.2.2 p hp hc)⟩
  | some m0 =>
    dsimp only
    rw [if_pos rfl]
    have hspec := deleteEmptyRoom_spec
      { st with rooms := aset st.rooms roomId [] } roomId
    exact ⟨hspec.1, hspec.2.1, hspec.2.2.1, fun p hp hc => List.mem_append_right _
      (hspec.2.2.2 p hp hc)⟩

theorem scan_waiting_preserved {st : ServerState} (odId r : String)
    (hnd : (st.waitingRooms.map Prod.fst).Nodup) {p : String × WaitingUser}
    (hp : p ∈ (aget st.waitingRooms r).getD []) (hne : p.1 ≠ odId) :
    p ∈ (aget (disconnectWaitingScan st odId).1.waitingRooms r).getD [] := by
  simp only [disconnectWaitingScan]
  cases hf : st.waitingRooms.find? (fun q => (aget q.2 odId).isSome) with
  | none => exact hp
  | some q =>
    obtain ⟨rid, w⟩ := q
    dsimp only
    by_cases hr : r = rid
    · subst hr
      have hw : aget st.waitingRooms r = some w := aget_of_find? hnd hf
      rw [aget_aset_self]
      rw [hw] at hp
      simp only [Option.getD_some] at hp ⊢
      exact List.mem_filter.2 ⟨hp, by simp [hne]⟩
    · rw [aget_aset_ne _ _ _ _ hr]
      exact hp

theorem scan_rooms_eq (st : ServerState) (odId : String) :
    (disconnectWaitingScan st odId).1.rooms = st.rooms ∧
    (disconnectWaitingScan st odId).1.roomMetadata = st.roomMetadata ∧
    (disconnectWaitingScan st odId).1.socketToUser = st.socketToUser ∧
    (disconnectWaitingScan st odId).1.connected = st.connected := by
  simp only [disconnectWaitingScan]
  cases hf : st.waitingRooms.find? (fun q => (aget q.2 odId).isSome) with
  | none => exact ⟨rfl, rfl, rfl, rfl⟩
  | some q =>
    obtain ⟨rid, w⟩ := q
    exact ⟨rfl, rfl, rfl, rfl⟩

theorem admitUser_metadata_eq (st : ServerState) (sid roomId odId : String) :
    (admitUser st sid roomId odId).1.roomMetadata = st.roomMetadata := by
  simp only [admitUser]
  split
  · rfl
  · split
    · rfl
    · split
      · rfl
      · dsimp only
        split
        · split
          · rfl
          · rfl
        · rfl

theorem denyUser_metadata_eq (st : ServerState) (sid roomId odId : String) :
    (denyUser st sid roomId odId).1.roomMetadata = st.roomMetadata := by
  simp only [denyUser]
  split
  · rfl
  · split
    · rfl
    · split
      · rfl
      · dsimp only
        split
        · rfl
        · rfl

theorem lockPres_refl (st : ServerState) : lockPres st st :=
  fun _ m' h1 h2 => ⟨m', h1, h2⟩

theorem lockPres_joinWaiting (st : ServerState) (sid roomId odId : String)
    (userName : Option String) (m : RoomMeta) :
    lockPres st (joinWaiting st sid roomId odId userName m).1 :=
  fun _ m' h1 h2 => ⟨m', h1, h2⟩

theorem lockPres_joinDirect (st : ServerState) (sid roomId odId : String)
    (config : Option JoinConfig) (b : Bool) :
    lockPres st (joinDirect st sid roomId odId config b).1 := by
  intro r m' h1 h2
  cases b with
  | true =>
    simp only [joinDirect, if_true] at h1
    rw [aget_aset_self] at h1
    dsimp only at h1
    by_cases hr : r = roomId
    · subst hr
      rw [aget_aset_self] at h1
      cases h1
      cases h2
    · rw [aget_aset_ne _ _ _ _ hr] at h1
      exact ⟨m', h1, h2⟩
  | false =>
    simp only [joinDirect, Bool.false_eq_true, if_false] at h1
    cases hmem : aget st.rooms roomId with
    | none =>
      rw [hmem] at h1
      exact ⟨m', h1, h2⟩
    | some l =>
      rw [hmem] at h1
      exact ⟨m', h1, h2⟩

theorem lockPres_joinRoom (st : ServerState) (sid roomId odId : String)
    (config : Option JoinConfig) (userName : Option String) :
    lockPres st (joinRoom st sid roomId odId config userName).1 := by
  simp only [joinRoom]
  cases otruthy userName with
  | none =>
    cases hm : aget st.roomMetadata roomId with
    | none => exact lockPres_joinDirect st sid roomId odId config true
    | some m =>
      dsimp only
      by_cases hl : m.isLocked
      · rw [if_pos hl]
        exact lockPres_refl st
      · rw [if_neg hl]
        by_cases hw : (m.waitingRoom && decide (m.hostId ≠ some odId)) = true
        · rw [if_pos hw]
          exact lockPres_joinWaiting st sid roomId odId userName m
        · rw [if_neg hw]
          exact lockPres_joinDirect st sid roomId odId config false
  | some un =>
    cases hm : aget st.roomMetadata roomId with
    | none => exact lockPres_joinDirect _ sid roomId odId config true
    | some m =>
      dsimp only
      by_cases hl : m.isLocked
      · rw [if_pos hl]
        exact lockPres_refl _
      · rw [if_neg hl]
        by_cases hw : (m.waitingRoom && decide (m.hostId ≠ some odId)) = true
        · rw [if_pos hw]
          exact lockPres_joinWaiting _ sid roomId odId userName m
        · rw [if_neg hw]
          exact lockPres_joinDirect _ sid roomId odId config false

theorem lockPres_memberExit (st : ServerState) (roomId userId : String) :
    lockPres st (memberExit st roomId userId).1 := by
  intro r m' h1 h2
  revert h1
  simp only [memberExit]
  cases hmem : aget st.rooms roomId with
  | none => exact fun h1 => ⟨m', h1, h2⟩
  | some mem =>
    dsimp only
    cases hmem1 : sdel mem userId with
    | nil =>
      cases hmeta : aget st.roomMetadata roomId with
      | none =>
        dsimp only
        rw [if_pos rfl]
        simp only [deleteEmptyRoom]
        cases hw : aget st.waitingRooms roomId with
        | none =>
          dsimp only
          intro h1
          by_cases hr : r = roomId
          · subst hr
            rw [aget_adel_self] at h1
            cases h1
          · rw [aget_adel_ne _ _ _ hr] at h1
            exact ⟨m', h1, h2⟩
        | some w =>
          dsimp only
          intro h1
          by_cases hr : r = roomId
          · subst hr
            rw [aget_adel_self] at h1
            cases h1
          · rw [aget_adel_ne _ _ _ hr] at h1
            exact ⟨m', h1, h2⟩
      | some m0 =>
        dsimp only
        rw [if_pos rfl]
        simp only [deleteEmptyRoom]
        cases hw : aget st.waitingRooms roomId with
        | none =>
          dsimp only
          intro h1
          by_cases hr : r = roomId
          · subst hr
            rw [aget_adel_self] at h1
            cases h1
          · rw [aget_adel_ne _ _ _ hr] at h1
            exact ⟨m', h1, h2⟩
        | some w =>
          dsimp only
          intro h1
          by_cases hr : r = roomId
          · subst hr
            rw [aget_adel_self] at h1
            cases h1
          · rw [aget_adel_ne _ _ _ hr] at h1
            exact ⟨m', h1, h2⟩
    | cons nh rest =>
      cases hmeta : aget st.roomMetadata roomId with
      | none =>
        dsimp only
        rw [if_neg (List.cons_ne_nil nh rest)]
        exact fun h1 => ⟨m', h1, h2⟩
      | some m0 =>
        dsimp only
        by_cases hhost : m0.hostId = some userId
        · rw [if_pos hhost]
          dsimp only
          rw [if_neg (List.cons_ne_nil nh rest)]
          intro h1
          by_cases hr : r = roomId
          · subst hr
            rw [aget_aset_self] at h1
            cases h1
            exact ⟨m0, hmeta, h2⟩
          · rw [aget_aset_ne _ _ _ _ hr] at h1
            exact ⟨m', h1, h2⟩
        · rw [if_neg hhost]
          dsimp only
          rw [if_neg (List.cons_ne_nil nh rest)]
          exact fun h1 => ⟨m', h1, h2⟩

theorem lockPres_leaveRoom (st : ServerState) (sid roomId userId : String) :
    lockPres st (leaveRoom st sid roomId userId).1 := by
  simp only [leaveRoom]
  exact lockPres_memberExit _ roomId userId

theorem lockPres_of_eq {st st' : ServerState} (h : st'.roomMetadata = st.roomMetadata) :
    lockPres st st' :=
  fun _ m' h1 h2 => ⟨m', by rwa [h] at h1, h2⟩

theorem lockPres_trans {a b c : ServerState} (h1 : lockPres a b) (h2 : lockPres b c) :
    lockPres a c := by
  intro r m' hm hml
  obtain ⟨mb, hmb, hmbl⟩ := h2 r m' hm hml
  exact h1 r mb hmb hmbl

theorem lockPres_disconnectH (st : ServerState) (sid : String) :
    lockPres st (disconnectH st sid).1 := by
  simp only [disconnectH]
  cases hsu : otruthy (aget st.socketToUser sid) with
  | none => exact lockPres_of_eq rfl
  | some odId =>
    dsimp only
    have e1 : lockPres st (disconnectWaitingScan { st with connected := sdel st.connected sid, channels := st.channels.filter (fun p => p.1 ≠ sid) } odId).1 :=
      lockPres_of_eq ((scan_rooms_eq _ odId).2.1)
    cases hrm : otruthy (aget st.userToRoom odId) with
    | none =>
      dsimp only
      exact lockPres_trans e1 (lockPres_of_eq rfl)
    | some r0 =>
      dsimp only
      have e2 := lockPres_memberExit (disconnectWaitingScan { st with connected := sdel st.connected sid, channels := st.channels.filter (fun p => p.1 ≠ sid) } odId).1 r0 odId
      exact lockPres_trans e1 (lockPres_trans e2 (lockPres_of_eq rfl))

theorem lockPres_toggleWaitingRoomStep (st : ServerState) (sid roomId : String) :
    lockPres st (stepE st (Event.toggleWaitingRoomEv sid roomId)).1 := by
  simp only [stepE, toggleWaitingRoomE]
  by_cases hg : ((aget st.roomMetadata roomId).bind fun m => m.hostId) ≠ aget st.socketToUser sid
  · rw [if_pos hg]
    exact lockPres_refl st
  · rw [if_neg hg]
    cases hm : aget st.roomMetadata roomId with
    | none => exact lockPres_refl st
    | some m =>
      dsimp only
      intro r m' h1 h2
      by_cases hr : r = roomId
      · subst hr
        rw [aget_aset_self] at h1
        cases h1
        exact ⟨m, hm, h2⟩
      · rw [aget_aset_ne _ _ _ _ hr] at h1
        exact ⟨m', h1, h2⟩

/-- Claim C9: every statistics sample computes the reported loss
percentage from the delta of the cumulative lost/received counters
against the previous sample (zero when the window has no packets), not
from the lifetime ratio, and with non-negative deltas the result lies in
[0, 100]. -/
theorem C9_loss_percentage (cumLost cumReceived prevLost prevReceived : Int)
    (h1 : 0 ≤ cumLost - prevLost) (h2 : 0 ≤ cumReceived - prevReceived) :
    (0 ≤ computeLossPercentage cumLost cumReceived prevLost prevReceived ∧
     computeLossPercentage cumLost cumReceived prevLost prevReceived ≤ 100) ∧
    (cumLost - prevLost + (cumReceived - prevReceived) = 0 →
     computeLossPercentage cumLost cumReceived prevLost prevReceived = 0) ∧
    (∀ prev : Option (Int × Int),
      sampleLoss cumLost cumReceived prev
        = (computeLossPercentage cumLost cumReceived (prev.getD (0, 0)).1 (prev.getD (0, 0)).2,
           (cumLost, cumReceived))) ∧
    (∃ cl cr pl pr : Int, computeLossPercentage cl cr pl pr ≠ lifetimeLossPercentage cl cr) := by
  refine ⟨?_, ?_, ?_, ?_⟩
  · unfold computeLossPercentage
    by_cases htot : 0 < cumLost - prevLost + (cumReceived - prevReceived)
    · rw [if_pos htot]
      have hpos : (0 : ℚ) < ((cumLost - prevLost + (cumReceived - prevReceived) : Int) : ℚ) := by
        exact_mod_cast htot
      constructor
      · apply mul_nonneg _ (by norm_num)
        apply div_nonneg _ (le_of_lt hpos)
        exact_mod_cast h1
      · have hle : ((cumLost - prevLost : Int) : ℚ)
            ≤ ((cumLost - prevLost + (cumReceived - prevReceived) : Int) : ℚ) := by
          exact_mod_cast le_add_of_nonneg_right h2
        calc ((cumLost - prevLost : Int) : ℚ)
              / ((cumLost - prevLost + (cumReceived - prevReceived) : Int) : ℚ) * 100
            ≤ 1 * 100 := by
              apply mul_le_mul_of_nonneg_right _ (by norm_num)
              exact (div_le_one hpos).2 hle
          _ = 100 := by norm_num
    · rw [if_neg htot]
      norm_num
  · intro h0
    unfold computeLossPercentage
    rw [if_neg (by rw [h0]; exact lt_irrefl 0)]
  · intro prev
    rfl
  · refine ⟨10, 90, 10, 40, ?_⟩
    norm_num [computeLossPercentage, lifetimeLossPercentage]

/-- Witness for C9 at a concrete sample: cumulative counters (7, 93)
against previous sample (2, 43). -/
theorem C9_witness :
    0 ≤ computeLossPercentage 7 93 2 43 ∧ computeLossPercentage 7 93 2 43 ≤ 100 :=
  (C9_loss_percentage 7 93 2 43 (by norm_num) (by norm_num)).1

/-- Claim C2 (code bug): a socket with no session binding sending
`toggle-lock` for a nonexistent room defeats the guard
`meta?.hostId !== hostUserId` (both sides undefined), so the handler
dereferences undefined metadata and throws — the coordinator process
dies.  The state below is reachable (one user hosting room R; a second,
never-joined socket). -/
theorem C2_toggle_lock_crashes :
    toggleLockE (run [Event.connectEv "s1",
        Event.joinRoomEv "s1" "R" "u1" none none, Event.connectEv "s2"]) "s2" "X"
      = Except.error () ∧
    aget (run [Event.connectEv "s1", Event.joinRoomEv "s1" "R" "u1" none none,
        Event.connectEv "s2"]).socketToUser "s2" = none ∧
    aget (run [Event.connectEv "s1", Event.joinRoomEv "s1" "R" "u1" none none,
        Event.connectEv "s2"]).roomMetadata "X" = none := by
  refine ⟨rfl, rfl, rfl⟩

/-- Claim C7: a join targeting an existing locked room emits room-locked
to the requester only and leaves membership, metadata, waiting entries,
session bindings and channels unchanged. -/
theorem C7_locked_room_join (st : ServerState) (sid roomId odId : String)
    (config : Option JoinConfig) (userName : Option String) (m : RoomMeta)
    (hm : aget st.roomMetadata roomId = some m) (hl : m.isLocked = true) :
    (joinRoom st sid roomId odId config userName).1.rooms = st.rooms ∧
    (joinRoom st sid roomId odId config userName).1.roomMetadata = st.roomMetadata ∧
    (joinRoom st sid roomId odId config userName).1.waitingRooms = st.waitingRooms ∧
    (joinRoom st sid roomId odId config userName).1.socketToUser = st.socketToUser ∧
    (joinRoom st sid roomId odId config userName).1.userToRoom = st.userToRoom ∧
    (joinRoom st sid roomId odId config userName).1.channels = st.channels ∧
    (joinRoom st sid roomId odId config userName).2
      = [(Target.socket sid, Msg.roomLocked roomId)] := by
  simp only [joinRoom]
  cases otruthy userName with
  | none =>
    rw [hm]
    dsimp only
    rw [if_pos hl]
    exact ⟨rfl, rfl, rfl, rfl, rfl, rfl, rfl⟩
  | some un =>
    dsimp only
    rw [hm]
    dsimp only
    rw [if_pos hl]
    exact ⟨rfl, rfl, rfl, rfl, rfl, rfl, rfl⟩

/-- Witness for C7: room R was created and then locked by its host; a
second socket's join yields only room-locked. -/
theorem C7_witness :
    aget (run [Event.connectEv "s1", Event.joinRoomEv "s1" "R" "u1" none none,
        Event.toggleLockEv "s1" "R", Event.connectEv "s2"]).roomMetadata "R"
      = some ⟨false, "Room R", some "u1", true, false⟩ ∧
    (joinRoom (run [Event.connectEv "s1", Event.joinRoomEv "s1" "R" "u1" none none,
        Event.toggleLockEv "s1" "R", Event.connectEv "s2"]) "s2" "R" "u2" none none).2
      = [(Target.socket "s2", Msg.roomLocked "R")] :=
  ⟨rfl, (C7_locked_room_join (run [Event.connectEv "s1",
      Event.joinRoomEv "s1" "R" "u1" none none, Event.toggleLockEv "s1" "R",
      Event.connectEv "s2"]) "s2" "R" "u2" none none _ rfl rfl).2.2.2.2.2.2⟩

/-- Counterexample to claim C8 as stated: an unbound socket naming a
nonexistent room is certainly not that room's host, yet the
toggle-waiting-room event is not silently ignored — the guard passes
(undefined equals undefined) and the handler throws on the undefined
metadata. -/
theorem C8_counter :
    aget (run [Event.connectEv "s1", Event.joinRoomEv "s1" "R" "u1" none none,
        Event.connectEv "s9"]).socketToUser "s9" = none ∧
    aget (run [Event.connectEv "s1", Event.joinRoomEv "s1" "R" "u1" none none,
        Event.connectEv "s9"]).roomMetadata "X" = none ∧
    toggleWaitingRoomE (run [Event.connectEv "s1",
        Event.joinRoomEv "s1" "R" "u1" none none, Event.connectEv "s9"]) "s9" "X"
      = Except.error () :=
  ⟨rfl, rfl, rfl⟩

/-- Claim C8 (amended): whenever the sender's bound user-identifier
differs from the named room's host identifier as optional values — in
particular whenever the sender has a binding or the room exists — all
four host-only handlers are silently ignored: no emission, state
unchanged.  (When both are absent the toggle handlers throw instead; see
the counterexample.) -/
theorem C8_non_host_ignored (st : ServerState) (sid roomId odId : String)
    (hauth : aget st.socketToUser sid ≠ (aget st.roomMetadata roomId).bind (fun m => m.hostId)) :
    admitUser st sid roomId odId = (st, []) ∧
    denyUser st sid roomId odId = (st, []) ∧
    toggleLockE st sid roomId = Except.ok (st, []) ∧
    toggleWaitingRoomE st sid roomId = Except.ok (st, []) := by
  have hg : ((aget st.roomMetadata roomId).bind fun m => m.hostId) ≠ aget st.socketToUser sid :=
    Ne.symm hauth
  refine ⟨?_, ?_, ?_, ?_⟩
  · simp only [admitUser, if_pos hg]
  · simp only [denyUser, if_pos hg]
  · simp only [toggleLockE, if_pos hg]
  · simp only [toggleWaitingRoomE, if_pos hg]

/-- Witness for C8: u2 (bound to socket s2) is a member but not the host
of room R, so its admit-user and toggle-lock attempts do nothing. -/
theorem C8_witness :
    aget (run [Event.connectEv "s1", Event.joinRoomEv "s1" "R" "u1" none none,
        Event.connectEv "s2", Event.joinRoomEv "s2" "R" "u2" none none]).socketToUser "s2"
      = some "u2" ∧
    (aget (run [Event.connectEv "s1", Event.joinRoomEv "s1" "R" "u1" none none,
        Event.connectEv "s2", Event.joinRoomEv "s2" "R" "u2" none none]).roomMetadata "R").bind
        (fun m => m.hostId) = some "u1" ∧
    admitUser (run [Event.connectEv "s1", Event.joinRoomEv "s1" "R" "u1" none none,
        Event.connectEv "s2", Event.joinRoomEv "s2" "R" "u2" none none]) "s2" "R" "u3"
      = (run [Event.connectEv "s1", Event.joinRoomEv "s1" "R" "u1" none none,
          Event.connectEv "s2", Event.joinRoomEv "s2" "R" "u2" none none], []) ∧
    toggleLockE (run [Event.connectEv "s1", Event.joinRoomEv "s1" "R" "u1" none none,
        Event.connectEv "s2", Event.joinRoomEv "s2" "R" "u2" none none]) "s2" "R"
      = Except.ok (run [Event.connectEv "s1", Event.joinRoomEv "s1" "R" "u1" none none,
          Event.connectEv "s2", Event.joinRoomEv "s2" "R" "u2" none none], []) := by
  refine ⟨rfl, rfl, ?_, ?_⟩
  · exact (C8_non_host_ignored (run [Event.connectEv "s1",
      Event.joinRoomEv "s1" "R" "u1" none none, Event.connectEv "s2",
      Event.joinRoomEv "s2" "R" "u2" none none]) "s2" "R" "u3" (by decide)).1
  · exact (C8_non_host_ignored (run [Event.connectEv "s1",
      Event.joinRoomEv "s1" "R" "u1" none none, Event.connectEv "s2",
      Event.joinRoomEv "s2" "R" "u2" none none]) "s2" "R" "u3" (by decide)).2.2.1

/-- Counterexample to claim C1 as stated: a peer connection exists with
no remote description applied; an incoming ICE candidate is dropped (the
addIceCandidate failure is logged) and is NOT applied after the remote
description is later set — the applied-candidate list stays empty. -/
theorem C1_counter :
    (handleIceCandidate ⟨[("p", ⟨false, []⟩)], [], [], 0⟩ "p" "cand").errorsLogged = 1 ∧
    (handleIceCandidate ⟨[("p", ⟨false, []⟩)], [], [], 0⟩ "p" "cand").peers
      = [("p", ⟨false, []⟩)] ∧
    (handleAnswer (handleIceCandidate ⟨[("p", ⟨false, []⟩)], [], [], 0⟩ "p" "cand")
        "p" "Bob" false).peers = [("p", ⟨true, []⟩)] :=
  ⟨rfl, rfl, rfl⟩

/-- Claim C1 (amended): an ICE candidate received before the remote
description is applied is passed straight to addIceCandidate, whose
failure is caught and logged and the candidate dropped — there is no
pending-candidate buffer; candidates received after the remote
description is set are appended in arrival order. -/
theorem C1_ice_candidate_amended :
    (∀ (cs : ClientState) (callerId c : String) (pc : RTCPeer),
      aget cs.peers callerId = some pc → pc.remoteDescSet = false →
      handleIceCandidate cs callerId c = { cs with errorsLogged := cs.errorsLogged + 1 }) ∧
    (∀ (cs : ClientState) (callerId c : String) (pc : RTCPeer),
      aget cs.peers callerId = some pc → pc.remoteDescSet = true →
      handleIceCandidate cs callerId c = { cs with peers := (aset cs.peers callerId
        ⟨true, pc.appliedCandidates ++ [c]⟩) }) ∧
    (∀ (cs : ClientState) (callerId : String) (l : List String) (pc : RTCPeer),
      aget cs.peers callerId = some pc → pc.remoteDescSet = true →
      aget (l.foldl (fun s c => handleIceCandidate s callerId c) cs).peers callerId
        = some ⟨true, pc.appliedCandidates ++ l⟩) := by
  have hdrop : ∀ (cs : ClientState) (callerId c : String) (pc : RTCPeer),
      aget cs.peers callerId = some pc → pc.remoteDescSet = false →
      handleIceCandidate cs callerId c = { cs with errorsLogged := cs.errorsLogged + 1 } := by
    intro cs callerId c pc hpc hdesc
    simp only [handleIceCandidate, hpc, addIceCandidate, hdesc, Bool.false_eq_true, if_false]
  have happly : ∀ (cs : ClientState) (callerId c : String) (pc : RTCPeer),
      aget cs.peers callerId = some pc → pc.remoteDescSet = true →
      handleIceCandidate cs callerId c = { cs with peers := (aset cs.peers callerId
        ⟨true, pc.appliedCandidates ++ [c]⟩) } := by
    intro cs callerId c pc hpc hdesc
    simp only [handleIceCandidate, hpc, addIceCandidate, hdesc, if_true]
  refine ⟨hdrop, happly, ?_⟩
  intro cs callerId l
  induction l generalizing cs with
  | nil =>
    intro pc hpc hdesc
    rw [List.foldl_nil, List.append_nil, hpc]
    cases pc
    cases hdesc
    rfl
  | cons c t ih =>
    intro pc hpc hdesc
    rw [List.foldl_cons, happly cs callerId c pc hpc hdesc]
    have hnext : aget (aset cs.peers callerId ⟨true, pc.appliedCandidates ++ [c]⟩) callerId
        = some ⟨true, pc.appliedCandidates ++ [c]⟩ := aget_aset_self _ _ _
    have := ih { cs with peers := aset cs.peers callerId ⟨true, pc.appliedCandidates ++ [c]⟩ }
      ⟨true, pc.appliedCandidates ++ [c]⟩ hnext rfl
    rw [this]
    simp

/-- Witness for C1 (amended): with the remote description applied,
candidates b and c land after a, in arrival order. -/
theorem C1_witness :
    aget ((["b", "c"].foldl (fun s c => handleIceCandidate s "p" c)
        (⟨[("p", ⟨true, ["a"]⟩)], [], [], 0⟩ : ClientState)).peers) "p"
      = some ⟨true, ["a", "b", "c"]⟩ ∧
    (handleIceCandidate (⟨[("q", ⟨false, []⟩)], [], [], 0⟩ : ClientState) "q" "x").errorsLogged
      = 1 :=
  ⟨C1_ice_candidate_amended.2.2 ⟨[("p", ⟨true, ["a"]⟩)], [], [], 0⟩ "p" ["b", "c"]
      ⟨true, ["a"]⟩ rfl rfl,
   by rw [C1_ice_candidate_amended.1 ⟨[("q", ⟨false, []⟩)], [], [], 0⟩ "q" "x"
      ⟨false, []⟩ rfl rfl]⟩

theorem memberExit_transfer (st : ServerState) (roomId userId : String)
    (mem : List String) (m : RoomMeta) (nh : String) (rest : List String)
    (hmem : aget st.rooms roomId = some mem)
    (hm : aget st.roomMetadata roomId = some m)
    (hhost : m.hostId = some userId)
    (hsd : sdel mem userId = nh :: rest) :
    memberExit st roomId userId
      = ({ st with rooms := aset st.rooms roomId (nh :: rest), roomMetadata := aset st.roomMetadata roomId { m with hostId := some nh } },
         hostTransferEmits { st with rooms := aset st.rooms roomId (nh :: rest), roomMetadata := aset st.roomMetadata roomId { m with hostId := some nh } } roomId nh) := by
  simp only [memberExit, hmem]
  rw [hsd, hm]
  dsimp only
  rw [if_pos hhost]
  dsimp only
  rw [if_neg (List.cons_ne_nil nh rest)]

theorem hostTransfer_count (st : ServerState) (roomId nh : String) :
    (∀ hs, otruthy (firstSock st.socketToUser nh) = some hs →
      (hostTransferEmits st roomId nh).countP
          (fun em => decide (em.2 = Msg.hostChanged true)) = 1 ∧
      (Target.socket hs, Msg.hostChanged true) ∈ hostTransferEmits st roomId nh) ∧
    (otruthy (firstSock st.socketToUser nh) = none → hostTransferEmits st roomId nh = []) := by
  constructor
  · intro hs hhs
    simp only [hostTransferEmits, hhs]
    constructor
    · cases hw : aget st.waitingRooms roomId with
      | none => simp [List.countP_cons]
      | some w =>
        by_cases hwe : w = []
        · simp [hwe, List.countP_cons]
        · simp [hwe, List.countP_cons, List.countP_append]
    · exact List.mem_append_left _ (List.mem_cons_self _ _)
  · intro hn
    simp only [hostTransferEmits, hn]

theorem scan_emits_no_hostChanged (st : ServerState) (odId : String) :
    (disconnectWaitingScan st odId).2.countP
      (fun em => decide (em.2 = Msg.hostChanged true)) = 0 := by
  simp only [disconnectWaitingScan]
  cases hf : st.waitingRooms.find? (fun q => (aget q.2 odId).isSome) with
  | none => rfl
  | some q =>
    obtain ⟨rid, w⟩ := q
    dsimp only
    cases aget st.roomMetadata rid with
    | none => rfl
    | some m =>
      dsimp only
      cases otruthy m.hostId with
      | none => rfl
      | some h =>
        dsimp only
        cases otruthy (firstSock st.socketToUser h) with
        | none => rfl
        | some hs => simp [List.countP_cons]

/-- Counterexample to claim C4 as stated: host u1 leaves room R while u2
remains; the host field is updated to u2 but NO member receives
host-changed, because u2's session binding was erased earlier (u2 joined
a second room and disconnected, which removed its binding while leaving
it in R's member set).  The emitted list below contains no host-changed
message. -/
theorem C4_counter :
    aget (run [Event.connectEv "s1", Event.joinRoomEv "s1" "R" "u1" none none,
        Event.connectEv "s2", Event.joinRoomEv "s2" "R" "u2" none none,
        Event.joinRoomEv "s2" "R2" "u2" none none, Event.disconnectEv "s2"]).rooms "R"
      = some ["u1", "u2"] ∧
    (aget (stepE (run [Event.connectEv "s1", Event.joinRoomEv "s1" "R" "u1" none none,
        Event.connectEv "s2", Event.joinRoomEv "s2" "R" "u2" none none,
        Event.joinRoomEv "s2" "R2" "u2" none none, Event.disconnectEv "s2"])
        (Event.leaveRoomEv "s1" "R" "u1")).1.roomMetadata "R").bind (fun m => m.hostId)
      = some "u2" ∧
    aget (stepE (run [Event.connectEv "s1", Event.joinRoomEv "s1" "R" "u1" none none,
        Event.connectEv "s2", Event.joinRoomEv "s2" "R" "u2" none none,
        Event.joinRoomEv "s2" "R2" "u2" none none, Event.disconnectEv "s2"])
        (Event.leaveRoomEv "s1" "R" "u1")).1.rooms "R" = some ["u2"] ∧
    (stepE (run [Event.connectEv "s1", Event.joinRoomEv "s1" "R" "u1" none none,
        Event.connectEv "s2", Event.joinRoomEv "s2" "R" "u2" none none,
        Event.joinRoomEv "s2" "R2" "u2" none none, Event.disconnectEv "s2"])
        (Event.leaveRoomEv "s1" "R" "u1")).2
      = [(Target.roomExceptSender "R" "s1", Msg.userDisconnected "u1"),
         (Target.broadcast, Msg.roomsUpdate [])] :=
  ⟨rfl, rfl, rfl, rfl⟩

/-- Claim C4 (amended): every existing room has exactly one host naming a
current member; when the host leaves or disconnects with members
remaining, the host field becomes the first remaining member, and
host-changed{isHost:true} is emitted exactly once, to the first socket
bound to the new host — and not at all when the new host has no live
session binding. -/
theorem C4_host_invariant_amended :
    (∀ evs r m, aget (run evs).roomMetadata r = some m →
      ∃ h mem, m.hostId = some h ∧ aget (run evs).rooms r = some mem ∧ h ∈ mem) ∧
    (∀ st sid roomId userId mem m nh rest, aget st.rooms roomId = some mem →
      aget st.roomMetadata roomId = some m → m.hostId = some userId →
      sdel mem userId = nh :: rest →
      aget (leaveRoom st sid roomId userId).1.roomMetadata roomId
          = some { m with hostId := some nh } ∧
      nh ∈ sdel mem userId ∧
      (∀ hs, otruthy (firstSock st.socketToUser nh) = some hs →
        (leaveRoom st sid roomId userId).2.countP
            (fun em => decide (em.2 = Msg.hostChanged true)) = 1 ∧
        (Target.socket hs, Msg.hostChanged true) ∈ (leaveRoom st sid roomId userId).2) ∧
      (otruthy (firstSock st.socketToUser nh) = none →
        (leaveRoom st sid roomId userId).2.countP
            (fun em => decide (em.2 = Msg.hostChanged true)) = 0)) ∧
    (∀ st sid odId roomId mem m nh rest,
      aget st.socketToUser sid = some odId → odId ≠ "" →
      aget st.userToRoom odId = some roomId → roomId ≠ "" →
      aget st.rooms roomId = some mem →
      aget st.roomMetadata roomId = some m → m.hostId = some odId →
      sdel mem odId = nh :: rest →
      aget (disconnectH st sid).1.roomMetadata roomId = some { m with hostId := some nh } ∧
      (∀ hs, otruthy (firstSock st.socketToUser nh) = some hs →
        (disconnectH st sid).2.countP
            (fun em => decide (em.2 = Msg.hostChanged true)) = 1 ∧
        (Target.socket hs, Msg.hostChanged true) ∈ (disconnectH st sid).2) ∧
      (otruthy (firstSock st.socketToUser nh) = none →
        (disconnectH st sid).2.countP
            (fun em => decide (em.2 = Msg.hostChanged true)) = 0)) := by
  refine ⟨?_, ?_, ?_⟩
  · intro evs r m hm
    obtain ⟨h1, _, _, h4⟩ := inv_run evs
    have hrs : (aget (run evs).rooms r).isSome = true := (h1 r).1 (by simp [hm])
    obtain ⟨mem, hmem⟩ := Option.isSome_iff_exists.1 hrs
    obtain ⟨h, hh1, hh2⟩ := h4 r m mem hm hmem
    exact ⟨h, mem, hh1, hmem, hh2⟩
  · intro st sid roomId userId mem m nh rest hmem hm hhost hsd
    have hme := memberExit_transfer { st with channels := st.channels.filter (fun p => !(p.1 = sid && p.2 = roomId)) } roomId userId mem m nh rest hmem hm hhost hsd
    simp only [leaveRoom]
    rw [hme]
    dsimp only
    have hcount := hostTransfer_count { st with channels := st.channels.filter (fun p => !(p.1 = sid && p.2 = roomId)), rooms := aset st.rooms roomId (nh :: rest), roomMetadata := aset st.roomMetadata roomId { m with hostId := some nh } } roomId nh
    refine ⟨?_, ?_, ?_, ?_⟩
    · exact aget_aset_self _ _ _
    · rw [hsd]
      exact List.mem_cons_self nh rest
    · intro hs hhs
      obtain ⟨hc1, hc2⟩ := hcount.1 hs hhs
      constructor
      · rw [List.countP_append, hc1]
        simp
      · exact List.mem_append_left _ hc2
    · intro hn
      rw [hcount.2 hn]
      simp
  · intro st sid odId roomId mem m nh rest hsu hodne hutr hrne hmem hm hhost hsd
    have hsu' : otruthy (aget st.socketToUser sid) = some odId := by
      rw [hsu]
      simp [otruthy, hodne]
    have hutr' : otruthy (aget st.userToRoom odId) = some roomId := by
      rw [hutr]
      simp [otruthy, hrne]
    simp only [disconnectH]
    rw [hsu']
    dsimp only
    rw [hutr']
    dsimp only
    have hsrq := scan_rooms_eq { st with connected := sdel st.connected sid, channels := st.channels.filter (fun p => p.1 ≠ sid) } odId
    have hmem1 : aget (disconnectWaitingScan { st with connected := sdel st.connected sid, channels := st.channels.filter (fun p => p.1 ≠ sid) } odId).1.rooms roomId = some mem := by
      rw [hsrq.1]
      exact hmem
    have hm1 : aget (disconnectWaitingScan { st with connected := sdel st.connected sid, channels := st.channels.filter (fun p => p.1 ≠ sid) } odId).1.roomMetadata roomId = some m := by
      rw [hsrq.2.1]
      exact hm
    have hmeT := memberExit_transfer (disconnectWaitingScan { st with connected := sdel st.connected sid, channels := st.channels.filter (fun p => p.1 ≠ sid) } odId).1 roomId odId mem m nh rest hmem1 hm1 hhost hsd
    rw [hmeT]
    dsimp only
    have hscan0 := scan_emits_no_hostChanged { st with connected := sdel st.connected sid, channels := st.channels.filter (fun p => p.1 ≠ sid) } odId
    have hcount := hostTransfer_count { (disconnectWaitingScan { st with connected := sdel st.connected sid, channels := st.channels.filter (fun p => p.1 ≠ sid) } odId).1 with rooms := aset (disconnectWaitingScan { st with connected := sdel st.connected sid, channels := st.channels.filter (fun p => p.1 ≠ sid) } odId).1.rooms roomId (nh :: rest), roomMetadata := aset (disconnectWaitingScan { st with connected := sdel st.connected sid, channels := st.channels.filter (fun p => p.1 ≠ sid) } odId).1.roomMetadata roomId { m with hostId := some nh } } roomId nh
    refine ⟨?_, ?_, ?_⟩
    · exact aget_aset_self _ _ _
    · intro hs hhs
      have hhs' : otruthy (firstSock (disconnectWaitingScan { st with connected := sdel st.connected sid, channels := st.channels.filter (fun p => p.1 ≠ sid) } odId).1.socketToUser nh) = some hs := by
        rw [hsrq.2.2.1]
        exact hhs
      obtain ⟨hc1, hc2⟩ := hcount.1 hs hhs'
      constructor
      · rw [List.countP_append, hscan0, List.countP_append, hc1]
        simp
      · exact List.mem_append_right _ (List.mem_append_left _ hc2)
    · intro hn
      have hn' : otruthy (firstSock (disconnectWaitingScan { st with connected := sdel st.connected sid, channels := st.channels.filter (fun p => p.1 ≠ sid) } odId).1.socketToUser nh) = none := by
        rw [hsrq.2.2.1]
        exact hn
      rw [List.countP_append, hscan0, hcount.2 hn']
      simp

/-- Witness for C4: host u1 of room R with members [u1, u2] leaves; u2
(bound to socket s2) becomes host and receives exactly one
host-changed. -/
theorem C4_witness :
    aget (run [Event.connectEv "s1", Event.joinRoomEv "s1" "R" "u1" none none,
        Event.connectEv "s2", Event.joinRoomEv "s2" "R" "u2" none none]).rooms "R"
      = some ["u1", "u2"] ∧
    (leaveRoom (run [Event.connectEv "s1", Event.joinRoomEv "s1" "R" "u1" none none,
        Event.connectEv "s2", Event.joinRoomEv "s2" "R" "u2" none none]) "s1" "R" "u1").2.countP
        (fun em => decide (em.2 = Msg.hostChanged true)) = 1 ∧
    (Target.socket "s2", Msg.hostChanged true)
      ∈ (leaveRoom (run [Event.connectEv "s1", Event.joinRoomEv "s1" "R" "u1" none none,
          Event.connectEv "s2", Event.joinRoomEv "s2" "R" "u2" none none]) "s1" "R" "u1").2 := by
  have h := (C4_host_invariant_amended.2.1 (run [Event.connectEv "s1",
      Event.joinRoomEv "s1" "R" "u1" none none, Event.connectEv "s2",
      Event.joinRoomEv "s2" "R" "u2" none none]) "s1" "R" "u1" ["u1", "u2"]
      ⟨false, "Room R", some "u1", false, false⟩ "u2" [] rfl rfl rfl rfl).2.2.1 "s2" rfl
  exact ⟨rfl, h.1, h.2⟩

/-- Counterexample to claim C5 as stated: room R is created with a
config enabling the waiting room; the subsequent join by the different
user u2 yields only a waiting-room message — no user-connected to the
member and no room-joined to the joiner. -/
theorem C5_counter :
    aget (run [Event.connectEv "s1",
        Event.joinRoomEv "s1" "R" "u1" (some ⟨false, "r", some true⟩) none,
        Event.connectEv "s2"]).roomMetadata "R"
      = some ⟨false, "r", some "u1", false, true⟩ ∧
    (stepE (run [Event.connectEv "s1",
        Event.joinRoomEv "s1" "R" "u1" (some ⟨false, "r", some true⟩) none,
        Event.connectEv "s2"]) (Event.joinRoomEv "s2" "R" "u2" none none)).2
      = [(Target.socket "s2", Msg.waitingRoomMsg "R" 1),
         (Target.socket "s1", Msg.waitingRoomUpdate "R" [("u2", "u2")])] ∧
    aget (stepE (run [Event.connectEv "s1",
        Event.joinRoomEv "s1" "R" "u1" (some ⟨false, "r", some true⟩) none,
        Event.connectEv "s2"]) (Event.joinRoomEv "s2" "R" "u2" none none)).1.rooms "R"
      = some ["u1"] :=
  ⟨rfl, rfl, rfl⟩

/-- Claim C5 (amended): a join of a room with no metadata creates it —
host is the joiner, lock off, visibility and waiting-room flag from the
config (defaulting off), display name from the config when non-empty
(else a default derived from the room id) — adds the joiner to
membership with a session binding, and answers room-joined{isHost:true};
a subsequent join by a different, non-host user while the room is
unlocked with waiting room disabled emits user-connected to the room
channel (hence delivered to every other member socket in it) and
room-joined{isHost:false} to the joiner. -/
theorem C5_join_create_amended :
    (∀ st sid roomId odId config userName,
      aget st.roomMetadata roomId = none →
      aget (joinRoom st sid roomId odId config userName).1.roomMetadata roomId
        = some ⟨(config.map (fun c => c.isPublic)).getD false, orElseStr (config.map (fun c => c.name)) ("Room " ++ roomId), some odId, false, (config.bind (fun c => c.waitingRoom)).getD false⟩ ∧
      aget (joinRoom st sid roomId odId config userName).1.rooms roomId = some [odId] ∧
      aget (joinRoom st sid roomId odId config userName).1.socketToUser sid = some odId ∧
      aget (joinRoom st sid roomId odId config userName).1.userToRoom odId = some roomId ∧
      (Target.socket sid, Msg.roomJoined roomId true ⟨false, (config.bind (fun c => c.waitingRoom)).getD false, some odId⟩) ∈ (joinRoom st sid roomId odId config userName).2) ∧
    (∀ st sid roomId odId config userName m mem,
      aget st.roomMetadata roomId = some m → m.isLocked = false →
      m.waitingRoom = false → m.hostId ≠ some odId →
      aget st.rooms roomId = some mem →
      (Target.roomExceptSender roomId sid, Msg.userConnected odId)
          ∈ (joinRoom st sid roomId odId config userName).2 ∧
      (Target.socket sid, Msg.roomJoined roomId false ⟨false, false, m.hostId⟩)
          ∈ (joinRoom st sid roomId odId config userName).2 ∧
      (∀ s1, (s1, roomId) ∈ st.channels → s1 ≠ sid →
        Target.deliversTo (Target.roomExceptSender roomId sid)
          (joinRoom st sid roomId odId config userName).1.channels s1)) := by
  constructor
  · intro st sid roomId odId config userName hnone
    simp only [joinRoom]
    cases otruthy userName with
    | none =>
      rw [hnone]
      simp only [joinDirect, if_true]
      rw [aget_aset_self]
      dsimp only
      refine ⟨aget_aset_self _ _ _, ?_, aget_aset_self _ _ _, aget_aset_self _ _ _, ?_⟩
      · rw [aget_aset_self]
        simp [sadd]
      · have hset : getRoomSettings { st with
            channels := if (sid, roomId) ∈ st.channels then st.channels else st.channels ++ [(sid, roomId)],
            socketToUser := aset st.socketToUser sid odId,
            userToRoom := aset st.userToRoom odId roomId,
            rooms := aset (aset st.rooms roomId []) roomId (sadd [] odId),
            roomMetadata := aset st.roomMetadata roomId ⟨(config.map (fun c => c.isPublic)).getD false, orElseStr (config.map (fun c => c.name)) ("Room " ++ roomId), some odId, false, (config.bind (fun c => c.waitingRoom)).getD false⟩,
            waitingRooms := aset st.waitingRooms roomId [] } roomId
            = ⟨false, (config.bind (fun c => c.waitingRoom)).getD false, some odId⟩ := by
          simp [getRoomSettings, aget_aset_self]
        simp only [aget_aset_self, Option.some_bind, hset]
        refine List.mem_append_right _ ?_
        simp
    | some un =>
      dsimp only
      rw [hnone]
      simp only [joinDirect, if_true]
      rw [aget_aset_self]
      dsimp only
      refine ⟨aget_aset_self _ _ _, ?_, aget_aset_self _ _ _, aget_aset_self _ _ _, ?_⟩
      · rw [aget_aset_self]
        simp [sadd]
      · have hset : getRoomSettings { st with
            userNames := aset st.userNames odId un,
            channels := if (sid, roomId) ∈ st.channels then st.channels else st.channels ++ [(sid, roomId)],
            socketToUser := aset st.socketToUser sid odId,
            userToRoom := aset st.userToRoom odId roomId,
            rooms := aset (aset st.rooms roomId []) roomId (sadd [] odId),
            roomMetadata := aset st.roomMetadata roomId ⟨(config.map (fun c => c.isPublic)).getD false, orElseStr (config.map (fun c => c.name)) ("Room " ++ roomId), some odId, false, (config.bind (fun c => c.waitingRoom)).getD false⟩,
            waitingRooms := aset st.waitingRooms roomId [] } roomId
            = ⟨false, (config.bind (fun c => c.waitingRoom)).getD false, some odId⟩ := by
          simp [getRoomSettings, aget_aset_self]
        simp only [aget_aset_self, Option.some_bind, hset]
        refine List.mem_append_right _ ?_
        simp
  · intro st sid roomId odId config userName m mem hm hl hw hne hmem
    simp only [joinRoom]
    cases otruthy userName with
    | none =>
      rw [hm]
      dsimp only
      rw [hl]
      simp only [Bool.false_eq_true, if_false]
      rw [hw]
      simp only [Bool.false_and, Bool.false_eq_true, if_false]
      simp only [joinDirect, Bool.false_eq_true, if_false]
      rw [hmem]
      dsimp only
      refine ⟨List.mem_append_left _ (List.mem_cons_self _ _), ?_, ?_⟩
      · have hhost : decide ((aget st.roomMetadata roomId).bind (fun mm => mm.hostId) = some odId) = false := by
          rw [hm]
          simpa using hne
        have hset : getRoomSettings { st with
            channels := if (sid, roomId) ∈ st.channels then st.channels else st.channels ++ [(sid, roomId)],
            socketToUser := aset st.socketToUser sid odId,
            userToRoom := aset st.userToRoom odId roomId,
            rooms := aset st.rooms roomId (sadd mem odId) } roomId
            = ⟨false, false, m.hostId⟩ := by
          simp [getRoomSettings, hm, hl, hw]
        simp only [hhost, hset]
        refine List.mem_append_right _ ?_
        simp
      · intro s1 hs1 hs1ne
        refine ⟨?_, hs1ne⟩
        dsimp only
        by_cases hc : (sid, roomId) ∈ st.channels
        · rw [if_pos hc]
          exact hs1
        · rw [if_neg hc]
          exact List.mem_append_left _ hs1
    | some un =>
      dsimp only
      rw [hm]
      dsimp only
      rw [hl]
      simp only [Bool.false_eq_true, if_false]
      rw [hw]
      simp only [Bool.false_and, Bool.false_eq_true, if_false]
      simp only [joinDirect, Bool.false_eq_true, if_false]
      rw [hmem]
      dsimp only
      refine ⟨List.mem_append_left _ (List.mem_cons_self _ _), ?_, ?_⟩
      · have hhost : decide ((aget st.roomMetadata roomId).bind (fun mm => mm.hostId) = some odId) = false := by
          rw [hm]
          simpa using hne
        have hset : getRoomSettings { st with
            userNames := aset st.userNames odId un,
            channels := if (sid, roomId) ∈ st.channels then st.channels else st.channels ++ [(sid, roomId)],
            socketToUser := aset st.socketToUser sid odId,
            userToRoom := aset st.userToRoom odId roomId,
            rooms := aset st.rooms roomId (sadd mem odId) } roomId
            = ⟨false, false, m.hostId⟩ := by
          simp [getRoomSettings, hm, hl, hw]
        simp only [hhost, hset]
        refine List.mem_append_right _ ?_
        simp
      · intro s1 hs1 hs1ne
        refine ⟨?_, hs1ne⟩
        dsimp only
        by_cases hc : (sid, roomId) ∈ st.channels
        · rw [if_pos hc]
          exact hs1
        · rw [if_neg hc]
          exact List.mem_append_left _ hs1

/-- Witness for C5: u1 creates public room "R"; then u2 joins the
existing unlocked, non-waiting room and the expected messages appear. -/
theorem C5_witness :
    aget (run [Event.connectEv "s1"]).roomMetadata "R" = none ∧
    aget (joinRoom (run [Event.connectEv "s1"]) "s1" "R" "u1"
        (some ⟨true, "myroom", none⟩) (some "Alice")).1.rooms "R" = some ["u1"] ∧
    (Target.roomExceptSender "R" "s2", Msg.userConnected "u2")
      ∈ (joinRoom (run [Event.connectEv "s1", Event.joinRoomEv "s1" "R" "u1" none none,
          Event.connectEv "s2"]) "s2" "R" "u2" none none).2 ∧
    (Target.socket "s2", Msg.roomJoined "R" false ⟨false, false, some "u1"⟩)
      ∈ (joinRoom (run [Event.connectEv "s1", Event.joinRoomEv "s1" "R" "u1" none none,
          Event.connectEv "s2"]) "s2" "R" "u2" none none).2 := by
  have h1 := (C5_join_create_amended.1 (run [Event.connectEv "s1"]) "s1" "R" "u1"
    (some ⟨true, "myroom", none⟩) (some "Alice") rfl).2.1
  have h2 := C5_join_create_amended.2 (run [Event.connectEv "s1",
      Event.joinRoomEv "s1" "R" "u1" none none, Event.connectEv "s2"]) "s2" "R" "u2"
      none none ⟨false, "Room R", some "u1", false, false⟩ ["u1"] rfl rfl rfl
      (by decide) rfl
  exact ⟨rfl, h1, h2.1, h2.2.1⟩

/-- Counterexample to claim C6 as stated: room R exists, is unlocked,
has waiting room enabled and host u1 — but u1's session binding is gone
(u1 re-joined another room from the same socket, then disconnected).
The join request by u3 produces a waiting entry and the requester
notification, but NO waiting-room-update is sent to anybody: the host is
not notified. -/
theorem C6_counter :
    aget (run [Event.connectEv "s1",
        Event.joinRoomEv "s1" "R" "u1" (some ⟨false, "r", some true⟩) none,
        Event.joinRoomEv "s1" "R2" "u1" none none, Event.disconnectEv "s1",
        Event.connectEv "s3"]).roomMetadata "R"
      = some ⟨false, "r", some "u1", false, true⟩ ∧
    (stepE (run [Event.connectEv "s1",
        Event.joinRoomEv "s1" "R" "u1" (some ⟨false, "r", some true⟩) none,
        Event.joinRoomEv "s1" "R2" "u1" none none, Event.disconnectEv "s1",
        Event.connectEv "s3"]) (Event.joinRoomEv "s3" "R" "u3" none none)).2
      = [(Target.socket "s3", Msg.waitingRoomMsg "R" 1)] :=
  ⟨rfl, rfl⟩

/-- Claim C6 (amended): a join of an existing unlocked room with waiting
room enabled by a non-host creates or updates that user's waiting entry,
answers the requester with its queue position, notifies the first socket
bound to the current host (if any) with the updated waiting list — no
host notification when the host has no live session binding — and leaves
membership, metadata and user-room bindings unchanged. -/
theorem C6_waiting_room_amended (st : ServerState) (sid roomId odId : String)
    (config : Option JoinConfig) (userName : Option String) (m : RoomMeta)
    (hm : aget st.roomMetadata roomId = some m) (hl : m.isLocked = false)
    (hw : m.waitingRoom = true) (hne : m.hostId ≠ some odId) :
    aget (joinRoom st sid roomId odId config userName).1.waitingRooms roomId
      = some (aset ((aget st.waitingRooms roomId).getD []) odId ⟨odId, sid, orElseStr userName odId⟩) ∧
    (joinRoom st sid roomId odId config userName).1.rooms = st.rooms ∧
    (joinRoom st sid roomId odId config userName).1.roomMetadata = st.roomMetadata ∧
    (joinRoom st sid roomId odId config userName).1.userToRoom = st.userToRoom ∧
    (Target.socket sid, Msg.waitingRoomMsg roomId
        (aset ((aget st.waitingRooms roomId).getD []) odId ⟨odId, sid, orElseStr userName odId⟩).length)
      ∈ (joinRoom st sid roomId odId config userName).2 ∧
    (∀ h hs, m.hostId = some h →
      otruthy (firstSock (aset st.socketToUser sid odId) h) = some hs →
      (Target.socket hs, Msg.waitingRoomUpdate roomId
          (waitingPayload (aset ((aget st.waitingRooms roomId).getD []) odId ⟨odId, sid, orElseStr userName odId⟩)))
        ∈ (joinRoom st sid roomId odId config userName).2) ∧
    (∀ h, m.hostId = some h →
      otruthy (firstSock (aset st.socketToUser sid odId) h) = none →
      ∀ t users, (t, Msg.waitingRoomUpdate roomId users)
        ∉ (joinRoom st sid roomId odId config userName).2) := by
  simp only [joinRoom]
  cases otruthy userName with
  | none =>
    rw [hm]
    dsimp only
    rw [hl]
    simp only [Bool.false_eq_true, if_false]
    rw [hw]
    simp only [Bool.true_and, decide_eq_true hne, if_true]
    simp only [joinWaiting]
    refine ⟨aget_aset_self _ _ _, trivial, trivial, trivial, List.mem_cons_self _ _, ?_, ?_⟩
    · intro h hs hh hhs
      rw [hh]
      dsimp only
      rw [hhs]
      exact List.mem_cons_of_mem _ (List.mem_cons_self _ _)
    · intro h hh hhs t users
      rw [hh]
      dsimp only
      rw [hhs]
      simp
  | some un =>
    dsimp only
    rw [hm]
    dsimp only
    rw [hl]
    simp only [Bool.false_eq_true, if_false]
    rw [hw]
    simp only [Bool.true_and, decide_eq_true hne, if_true]
    simp only [joinWaiting]
    refine ⟨aget_aset_self _ _ _, trivial, trivial, trivial, List.mem_cons_self _ _, ?_, ?_⟩
    · intro h hs hh hhs
      rw [hh]
      dsimp only
      rw [hhs]
      exact List.mem_cons_of_mem _ (List.mem_cons_self _ _)
    · intro h hh hhs t users
      rw [hh]
      dsimp only
      rw [hhs]
      simp

/-- Witness for C6: with host u1 bound to socket s1, the waiting-room
request of u3 yields the position message to s3 and the updated waiting
list to s1, and membership is untouched. -/
theorem C6_witness :
    aget (run [Event.connectEv "s1",
        Event.joinRoomEv "s1" "R" "u1" (some ⟨false, "r", some true⟩) none,
        Event.connectEv "s3"]).roomMetadata "R" = some ⟨false, "r", some "u1", false, true⟩ ∧
    (Target.socket "s3", Msg.waitingRoomMsg "R" 1)
      ∈ (joinRoom (run [Event.connectEv "s1",
          Event.joinRoomEv "s1" "R" "u1" (some ⟨false, "r", some true⟩) none,
          Event.connectEv "s3"]) "s3" "R" "u3" none none).2 ∧
    (Target.socket "s1", Msg.waitingRoomUpdate "R" [("u3", "u3")])
      ∈ (joinRoom (run [Event.connectEv "s1",
          Event.joinRoomEv "s1" "R" "u1" (some ⟨false, "r", some true⟩) none,
          Event.connectEv "s3"]) "s3" "R" "u3" none none).2 ∧
    (joinRoom (run [Event.connectEv "s1",
        Event.joinRoomEv "s1" "R" "u1" (some ⟨false, "r", some true⟩) none,
        Event.connectEv "s3"]) "s3" "R" "u3" none none).1.rooms
      = (run [Event.connectEv "s1",
          Event.joinRoomEv "s1" "R" "u1" (some ⟨false, "r", some true⟩) none,
          Event.connectEv "s3"]).rooms := by
  have h := C6_waiting_room_amended (run [Event.connectEv "s1",
      Event.joinRoomEv "s1" "R" "u1" (some ⟨false, "r", some true⟩) none,
      Event.connectEv "s3"]) "s3" "R" "u3" none none ⟨false, "r", some "u1", false, true⟩
      rfl rfl rfl (by decide)
  refine ⟨rfl, ?_, ?_, h.2.1⟩
  · have := h.2.2.2.2.1
    simpa using this
  · have := h.2.2.2.2.2.1 "u1" "s1" rfl (by decide)
    simpa using this

/-- Claim C3: after every event sequence, any room identifier present in
the membership, metadata, or waiting-room map has at least one member;
and a leave-room or disconnect that removes the last member deletes the
room from all three maps within that event and sends room-closed to
every still-waiting user whose socket is still connected.  (The Nodup
hypothesis in the disconnect part states that the waiting-room map has
no duplicate keys — true of every JavaScript Map by construction.) -/
theorem C3_empty_room_cleanup :
    (∀ evs r,
      ((aget (run evs).rooms r).isSome ∨ (aget (run evs).roomMetadata r).isSome ∨
        (aget (run evs).waitingRooms r).isSome) →
      ∃ mem, aget (run evs).rooms r = some mem ∧ 1 ≤ mem.length) ∧
    (∀ st sid roomId userId mem,
      aget st.rooms roomId = some mem → sdel mem userId = [] →
      aget (leaveRoom st sid roomId userId).1.rooms roomId = none ∧
      aget (leaveRoom st sid roomId userId).1.roomMetadata roomId = none ∧
      aget (leaveRoom st sid roomId userId).1.waitingRooms roomId = none ∧
      ∀ p ∈ (aget st.waitingRooms roomId).getD [], p.2.socketId ∈ st.connected →
        (Target.socket p.2.socketId, Msg.roomClosed roomId)
          ∈ (leaveRoom st sid roomId userId).2) ∧
    (∀ st sid odId roomId mem,
      (st.waitingRooms.map Prod.fst).Nodup →
      aget st.socketToUser sid = some odId → odId ≠ "" →
      aget st.userToRoom odId = some roomId → roomId ≠ "" →
      aget st.rooms roomId = some mem → sdel mem odId = [] →
      aget (disconnectH st sid).1.rooms roomId = none ∧
      aget (disconnectH st sid).1.roomMetadata roomId = none ∧
      aget (disconnectH st sid).1.waitingRooms roomId = none ∧
      ∀ p ∈ (aget st.waitingRooms roomId).getD [], p.1 ≠ odId →
        p.2.socketId ∈ sdel st.connected sid →
        (Target.socket p.2.socketId, Msg.roomClosed roomId) ∈ (disconnectH st sid).2) := by
  refine ⟨?_, ?_, ?_⟩
  · intro evs r hr
    obtain ⟨h1, h2, h3, _⟩ := inv_run evs
    have hsome : (aget (run evs).rooms r).isSome = true := by
      rcases hr with h | h | h
      · exact h
      · exact (h1 r).1 h
      · exact (h1 r).1 (h2 r h)
    obtain ⟨mem, hmem⟩ := Option.isSome_iff_exists.1 hsome
    refine ⟨mem, hmem, ?_⟩
    exact List.length_pos.2 (h3 r mem hmem)
  · intro st sid roomId userId mem hmem hempty
    have hclean := memberExit_empty_cleanup { st with channels := st.channels.filter (fun p => !(p.1 = sid && p.2 = roomId)) } roomId userId mem hmem hempty
    simp only [leaveRoom]
    exact ⟨hclean.1, hclean.2.1, hclean.2.2.1,
      fun p hp hc => List.mem_append_left _ (hclean.2.2.2 p hp hc)⟩
  · intro st sid odId roomId mem hnd hsu hodne hutr hrne hmem hempty
    have hsu' : otruthy (aget st.socketToUser sid) = some odId := by
      rw [hsu]
      simp [otruthy, hodne]
    have hutr' : otruthy (aget st.userToRoom odId) = some roomId := by
      rw [hutr]
      simp [otruthy, hrne]
    simp only [disconnectH]
    rw [hsu']
    dsimp only
    rw [hutr']
    dsimp only
    have hsrq := scan_rooms_eq { st with connected := sdel st.connected sid, channels := st.channels.filter (fun p => p.1 ≠ sid) } odId
    have hmem1 : aget (disconnectWaitingScan { st with connected := sdel st.connected sid, channels := st.channels.filter (fun p => p.1 ≠ sid) } odId).1.rooms roomId = some mem := by
      rw [hsrq.1]
      exact hmem
    have hclean := memberExit_empty_cleanup (disconnectWaitingScan { st with connected := sdel st.connected sid, channels := st.channels.filter (fun p => p.1 ≠ sid) } odId).1 roomId odId mem hmem1 hempty
    refine ⟨hclean.1, hclean.2.1, hclean.2.2.1, ?_⟩
    intro p hp hpod hc
    have hp1 : p ∈ (aget (disconnectWaitingScan { st with connected := sdel st.connected sid, channels := st.channels.filter (fun p => p.1 ≠ sid) } odId).1.waitingRooms roomId).getD [] :=
      @scan_waiting_preserved { st with connected := sdel st.connected sid, channels := st.channels.filter (fun p => p.1 ≠ sid) } odId roomId hnd p hp hpod
    have hc1 : p.2.socketId ∈ (disconnectWaitingScan { st with connected := sdel st.connected sid, channels := st.channels.filter (fun p => p.1 ≠ sid) } odId).1.connected := by
      rw [hsrq.2.2.2]
      exact hc
    have := hclean.2.2.2 p hp1 hc1
    exact List.mem_append_right _ (List.mem_append_left _ this)

/-- Witness for C3: host u1 of room R (with u2 still waiting on socket
s2) leaves; the room disappears from all maps and s2 receives
room-closed. -/
theorem C3_witness :
    aget (leaveRoom (run [Event.connectEv "s1",
        Event.joinRoomEv "s1" "R" "u1" (some ⟨false, "r", some true⟩) none,
        Event.connectEv "s2", Event.joinRoomEv "s2" "R" "u2" none none])
        "s1" "R" "u1").1.rooms "R" = none ∧
    aget (leaveRoom (run [Event.connectEv "s1",
        Event.joinRoomEv "s1" "R" "u1" (some ⟨false, "r", some true⟩) none,
        Event.connectEv "s2", Event.joinRoomEv "s2" "R" "u2" none none])
        "s1" "R" "u1").1.roomMetadata "R" = none ∧
    (Target.socket "s2", Msg.roomClosed "R")
      ∈ (leaveRoom (run [Event.connectEv "s1",
          Event.joinRoomEv "s1" "R" "u1" (some ⟨false, "r", some true⟩) none,
          Event.connectEv "s2", Event.joinRoomEv "s2" "R" "u2" none none])
          "s1" "R" "u1").2 ∧
    (∃ mem, aget (run [Event.connectEv "s1",
        Event.joinRoomEv "s1" "R" "u1" (some ⟨false, "r", some true⟩) none,
        Event.connectEv "s2", Event.joinRoomEv "s2" "R" "u2" none none]).rooms "R"
        = some mem ∧ 1 ≤ mem.length) := by
  have h2 := C3_empty_room_cleanup.2.1 (run [Event.connectEv "s1",
      Event.joinRoomEv "s1" "R" "u1" (some ⟨false, "r", some true⟩) none,
      Event.connectEv "s2", Event.joinRoomEv "s2" "R" "u2" none none])
      "s1" "R" "u1" ["u1"] rfl rfl
  have h1 := C3_empty_room_cleanup.1 [Event.connectEv "s1",
      Event.joinRoomEv "s1" "R" "u1" (some ⟨false, "r", some true⟩) none,
      Event.connectEv "s2", Event.joinRoomEv "s2" "R" "u2" none none] "R"
      (Or.inl (by decide))
  refine ⟨h2.1, h2.2.1, ?_, h1⟩
  have := h2.2.2.2 ("u2", ⟨"u2", "s2", "u2"⟩) (by decide) (by decide)
  exact this

/-- Claim C10: every room created by a join starts unlocked — the
creation config has no lock field and the created metadata always has
isLocked = false — and an unlocked (or absent) room can only become
locked by a toggle-lock event naming it, sent from a socket whose bound
user is the room's host (a current member). -/
theorem C10_rooms_start_unlocked :
    (∀ st sid roomId odId config userName,
      aget st.roomMetadata roomId = none →
      aget (joinRoom st sid roomId odId config userName).1.roomMetadata roomId
        = some ⟨(config.map (fun c => c.isPublic)).getD false, orElseStr (config.map (fun c => c.name)) ("Room " ++ roomId), some odId, false, (config.bind (fun c => c.waitingRoom)).getD false⟩) ∧
    (∀ evs e roomId,
      ¬ (aget (run evs).roomMetadata roomId).map (fun m => m.isLocked) = some true →
      (aget (step (run evs) e).roomMetadata roomId).map (fun m => m.isLocked) = some true →
      ∃ sid h mem, e = Event.toggleLockEv sid roomId ∧
        aget (run evs).socketToUser sid = some h ∧
        (∃ m, aget (run evs).roomMetadata roomId = some m ∧ m.hostId = some h) ∧
        aget (run evs).rooms roomId = some mem ∧ h ∈ mem) := by
  constructor
  · intro st sid roomId odId config userName hnone
    simp only [joinRoom]
    cases otruthy userName with
    | none =>
      rw [hnone]
      simp only [joinDirect, if_true]
      rw [aget_aset_self]
      dsimp only
      exact aget_aset_self _ _ _
    | some un =>
      dsimp only
      rw [hnone]
      simp only [joinDirect, if_true]
      rw [aget_aset_self]
      dsimp only
      exact aget_aset_self _ _ _
  · intro evs e roomId hpre hpost
    have push : ∀ st' : ServerState, lockPres (run evs) st' →
        (aget st'.roomMetadata roomId).map (fun m => m.isLocked) = some true →
        (aget (run evs).roomMetadata roomId).map (fun m => m.isLocked) = some true := by
      intro st' L hp
      obtain ⟨m', hm', hml⟩ := Option.map_eq_some'.1 hp
      obtain ⟨m, hm, hl⟩ := L roomId m' hm' hml
      rw [hm, Option.map_some', hl]
    cases e with
    | connectEv sid => exact absurd (push _ (lockPres_of_eq rfl) hpost) hpre
    | joinRoomEv sid r u c un =>
      exact absurd (push _ (lockPres_joinRoom (run evs) sid r u c un) hpost) hpre
    | admitUserEv sid r u =>
      exact absurd (push _ (lockPres_of_eq (admitUser_metadata_eq (run evs) sid r u)) hpost) hpre
    | denyUserEv sid r u =>
      exact absurd (push _ (lockPres_of_eq (denyUser_metadata_eq (run evs) sid r u)) hpost) hpre
    | toggleWaitingRoomEv sid r =>
      exact absurd (push _ (lockPres_toggleWaitingRoomStep (run evs) sid r) hpost) hpre
    | leaveRoomEv sid r u =>
      exact absurd (push _ (lockPres_leaveRoom (run evs) sid r u) hpost) hpre
    | disconnectEv sid =>
      exact absurd (push _ (lockPres_disconnectH (run evs) sid) hpost) hpre
    | getRoomsEv sid => exact absurd (push _ (lockPres_of_eq rfl) hpost) hpre
    | pingEv sid => exact absurd (push _ (lockPres_of_eq rfl) hpost) hpre
    | chatEv sid r b => exact absurd (push _ (lockPres_of_eq rfl) hpost) hpre
    | reactionEv sid r b => exact absurd (push _ (lockPres_of_eq rfl) hpost) hpre
    | captionEv sid r b => exact absurd (push _ (lockPres_of_eq rfl) hpost) hpre
    | whiteboardDrawEv sid r b => exact absurd (push _ (lockPres_of_eq rfl) hpost) hpre
    | whiteboardClearEv sid r => exact absurd (push _ (lockPres_of_eq rfl) hpost) hpre
    | offerEv sid p =>
      have L : lockPres (run evs) (step (run evs) (Event.offerEv sid p)) := by
        simp only [step, stepE, offerH]
        cases otruthy (senderRoom (run evs) sid) <;> exact lockPres_of_eq rfl
      exact absurd (push _ L hpost) hpre
    | answerEv sid p =>
      have L : lockPres (run evs) (step (run evs) (Event.answerEv sid p)) := by
        simp only [step, stepE, answerH]
        cases otruthy (senderRoom (run evs) sid) <;> exact lockPres_of_eq rfl
      exact absurd (push _ L hpost) hpre
    | iceEv sid t b =>
      have L : lockPres (run evs) (step (run evs) (Event.iceEv sid t b)) := by
        simp only [step, stepE, iceH]
        cases otruthy (senderRoom (run evs) sid) <;> exact lockPres_of_eq rfl
      exact absurd (push _ L hpost) hpre
    | toggleLockEv sid r' =>
      by_cases hr : r' = roomId
      · subst hr
        revert hpost
        simp only [step, stepE, toggleLockE]
        by_cases hg : ((aget (run evs).roomMetadata r').bind fun m => m.hostId)
            ≠ aget (run evs).socketToUser sid
        · rw [if_pos hg]
          intro hpost
          exact absurd hpost hpre
        · rw [if_neg hg]
          cases hm : aget (run evs).roomMetadata r' with
          | none =>
            intro hpost
            exact absurd hpost hpre
          | some m =>
            dsimp only
            intro hpost
            rw [aget_aset_self] at hpost
            obtain ⟨h1, _, _, h4⟩ := inv_run evs
            have hrs : (aget (run evs).rooms r').isSome = true := (h1 r').1 (by simp [hm])
            obtain ⟨mem, hmem⟩ := Option.isSome_iff_exists.1 hrs
            obtain ⟨h, hh1, hh2⟩ := h4 r' m mem hm hmem
            have hsu : aget (run evs).socketToUser sid = some h := by
              have := not_not.1 hg
              rw [hm] at this
              dsimp only [Option.bind] at this
              rw [← this, hh1]
            exact ⟨sid, h, mem, rfl, hsu, ⟨m, rfl, hh1⟩, hmem, hh2⟩
      · have hkeep : aget (step (run evs) (Event.toggleLockEv sid r')).roomMetadata roomId
            = aget (run evs).roomMetadata roomId := by
          simp only [step, stepE, toggleLockE]
          by_cases hg : ((aget (run evs).roomMetadata r').bind fun m => m.hostId)
              ≠ aget (run evs).socketToUser sid
          · rw [if_pos hg]
          · rw [if_neg hg]
            cases hm : aget (run evs).roomMetadata r' with
            | none => rfl
            | some m =>
              dsimp only
              exact aget_aset_ne _ _ _ _ (fun he => hr he.symm)
        rw [hkeep] at hpost
        exact absurd hpost hpre

/-- Witness for C10: creating room R yields unlocked metadata, and the
host's toggle-lock is the event that locks it. -/
theorem C10_witness :
    aget (run [Event.connectEv "s1"]).roomMetadata "R" = none ∧
    aget (joinRoom (run [Event.connectEv "s1"]) "s1" "R" "u1"
        (some ⟨true, "myroom", some true⟩) none).1.roomMetadata "R"
      = some ⟨true, "myroom", some "u1", false, true⟩ ∧
    ¬ (aget (run [Event.connectEv "s1",
        Event.joinRoomEv "s1" "R" "u1" none none]).roomMetadata "R").map
        (fun m => m.isLocked) = some true ∧
    (aget (step (run [Event.connectEv "s1", Event.joinRoomEv "s1" "R" "u1" none none])
        (Event.toggleLockEv "s1" "R")).roomMetadata "R").map (fun m => m.isLocked)
      = some true ∧
    ∃ sid h mem, Event.toggleLockEv "s1" "R" = Event.toggleLockEv sid "R" ∧
      aget (run [Event.connectEv "s1",
          Event.joinRoomEv "s1" "R" "u1" none none]).socketToUser sid = some h ∧
      (∃ m, aget (run [Event.connectEv "s1",
          Event.joinRoomEv "s1" "R" "u1" none none]).roomMetadata "R" = some m ∧
        m.hostId = some h) ∧
      aget (run [Event.connectEv "s1",
          Event.joinRoomEv "s1" "R" "u1" none none]).rooms "R" = some mem ∧ h ∈ mem := by
  refine ⟨rfl, ?_, by decide, by decide, ?_⟩
  · exact (C10_rooms_start_unlocked.1 (run [Event.connectEv "s1"]) "s1" "R" "u1"
      (some ⟨true, "myroom", some true⟩) none rfl)
  · exact C10_rooms_start_unlocked.2 [Event.connectEv "s1",
      Event.joinRoomEv "s1" "R" "u1" none none] (Event.toggleLockEv "s1" "R") "R"
      (by decide) (by decide)

end MeetMesh
